import Mathlib

/-!
# Linux notification plugin: recurrence calculator and timer registry

A shallow embedding of `linux/flutter_local_notifications_plugin.cc`.

* Signed 64-bit quantities (`gint64`, `int64_t`) are `Int`.  The Unix times of
  `GDateTime` values lie between the years 1 and 9999, so the subtraction and
  addition in `GetNextNotifyTime` cannot leave the 64-bit range.
* Unsigned 32-bit quantities (`guint`: timer intervals) are `Nat`, and every
  conversion to `guint` is written out as a reduction modulo `2 ^ 32`.
* `assert` is modelled as enabled: a failed assertion aborts the process, which
  the embedding renders as `none`.
* The GLib main loop is the list of armed timeout sources carried in the plugin
  state; a timer fire is one atomic step that runs the source's callback.
-/

namespace FlutterLocalNotifications

/-! ## Enumerations -/

/-- The `enum class RepeatInterval`: period lengths in seconds. -/
inductive RepeatInterval where
  | EveryMinute
  | Hourly
  | Daily
  | Weekly
  deriving DecidableEq, Repr

/-- The underlying value of a `RepeatInterval` enumerator
(`EveryMinute = 60`, `Hourly = EveryMinute * 60`, `Daily = Hourly * 24`,
`Weekly = Daily * 7`). -/
def RepeatInterval.value : RepeatInterval → Int
  | .EveryMinute => 60
  | .Hourly => 60 * 60
  | .Daily => 60 * 60 * 24
  | .Weekly => 60 * 60 * 24 * 7

/-- The table `RepeatIntervalMap[]`, indexed by the `repeatInterval` argument. -/
def RepeatIntervalMap : List RepeatInterval :=
  [RepeatInterval.EveryMinute, RepeatInterval.Hourly, RepeatInterval.Daily, RepeatInterval.Weekly]

/-- The `enum class DateTimeComponents`.  A value outside the two enumerators
runs into `assert(!"Invalid component")` in `GetNextNotifyTime`; the embedding
raises that assertion where the integer is cast, see `DateTimeComponents.ofInt`. -/
inductive DateTimeComponents where
  | Time
  | DayOfWeekAndTime
  deriving DecidableEq, Repr

/-- The `enum class ModType`, the template parameter of `Mod`. -/
inductive ModType where
  | Normal
  | NoZero
  deriving DecidableEq, Repr

/-! ## Recurrence calculator -/

/-- The function template `Mod<UsingModType>(a, b)`: `b = abs(b)`, then the
truncating remainder `a % b`, then `result + b` when the comparison selected by
the mode (`std::less` for `Normal`, `std::less_equal` for `NoZero`) holds of
`result` and `0`.  The divisor `0` is undefined behaviour in the source, and so
is `abs` of the least 64-bit integer. -/
def Mod (UsingModType : ModType) (a b : Int) : Int :=
  let b : Int := (Int.natAbs b : Int)
  let result := Int.tmod a b
  let cmp : Bool :=
    match UsingModType with
    | .NoZero => decide (result ≤ 0)
    | .Normal => decide (result < 0)
  if cmp then result + b else result

/-- A `GDateTime`: an instant (seconds since the Unix epoch) together with the
time zone it is expressed in. -/
structure GDateTime where
  unix : Int
  timezone : String
  deriving DecidableEq, Repr

/-- GLib `g_date_time_get_timezone`. -/
def g_date_time_get_timezone (d : GDateTime) : String := d.timezone

/-- GLib `g_date_time_to_unix`. -/
def g_date_time_to_unix (d : GDateTime) : Int := d.unix

/-- GLib `g_date_time_new_from_unix_utc`. -/
def g_date_time_new_from_unix_utc (t : Int) : GDateTime := { unix := t, timezone := "UTC" }

/-- GLib `g_date_time_to_timezone`: the same instant in another time zone. -/
def g_date_time_to_timezone (d : GDateTime) (tz : String) : GDateTime := { d with timezone := tz }

/-- The function `GetNextNotifyTime(now, value, component)`.  Both calls of `Mod`
leave the template argument out, so they run in the default mode
`ModType::Normal`. -/
def GetNextNotifyTime (now value : GDateTime) (component : DateTimeComponents) : GDateTime :=
  let usingTimeZone := g_date_time_get_timezone now
  let nowTimeStamp := g_date_time_to_unix now
  let valueTimeStamp := g_date_time_to_unix value
  let diff := valueTimeStamp - nowTimeStamp
  let diff :=
    match component with
    | .Time => Mod ModType.Normal diff RepeatInterval.Daily.value
    | .DayOfWeekAndTime => Mod ModType.Normal diff RepeatInterval.Weekly.value
  let utcResult := g_date_time_new_from_unix_utc (nowTimeStamp + diff)
  g_date_time_to_timezone utcResult usingTimeZone

/-- The period, in seconds, that goes with a granularity: one day for
`Time`, one week for `DayOfWeekAndTime`. -/
def DateTimeComponents.period : DateTimeComponents → Int
  | .Time => 86400
  | .DayOfWeekAndTime => 604800

/-! ## Method-channel values -/

/-- The `FlValue` of the method channel: a dynamically typed value.  A floating
point payload plays no part in the plugin and is carried as its bit pattern. -/
inductive FlValue where
  | null
  | bool (b : Bool)
  | int (i : Int)
  | float (bits : Nat)
  | string (s : String)
  | uint8List (l : List Nat)
  | int32List (l : List Int)
  | int64List (l : List Int)
  | floatList (l : List Nat)
  | list (l : List FlValue)
  | map (m : List (FlValue × FlValue))

/-- The `FlValueType` tags. -/
inductive FlValueType where
  | NULL
  | BOOL
  | INT
  | FLOAT
  | STRING
  | UINT8_LIST
  | INT32_LIST
  | INT64_LIST
  | FLOAT_LIST
  | LIST
  | MAP
  deriving DecidableEq, Repr

/-- Library function `fl_value_get_type`.  A `FlValue*` is an `Option FlValue`,
the null pointer being `none`; the library answers `FL_VALUE_TYPE_NULL` there. -/
def fl_value_get_type : Option FlValue → FlValueType
  | none => .NULL
  | some .null => .NULL
  | some (.bool _) => .BOOL
  | some (.int _) => .INT
  | some (.float _) => .FLOAT
  | some (.string _) => .STRING
  | some (.uint8List _) => .UINT8_LIST
  | some (.int32List _) => .INT32_LIST
  | some (.int64List _) => .INT64_LIST
  | some (.floatList _) => .FLOAT_LIST
  | some (.list _) => .LIST
  | some (.map _) => .MAP

/-- Library function `fl_value_lookup_string`: the value stored in a map under
the first key that is a string equal to `key`; a null pointer when there is
none or the value is not a map. -/
def fl_value_lookup_string (v : Option FlValue) (key : String) : Option FlValue :=
  match v with
  | some (.map m) =>
    (m.find? (fun kv => match kv.1 with
      | .string s => s == key
      | _ => false)).map Prod.snd
  | _ => none

/-- Library function `fl_value_get_int`; `0` on a value that is not an integer. -/
def fl_value_get_int : Option FlValue → Int
  | some (.int i) => i
  | _ => 0

/-- Library function `fl_value_get_string`; a null pointer on a value that is
not a string. -/
def fl_value_get_string : Option FlValue → Option String
  | some (.string s) => some s
  | _ => none

/-- A method-channel response (`FlMethodResponse`). -/
inductive FlMethodResponse where
  | success (result : Option FlValue)
  | error (code : String) (message : String) (details : Option FlValue)
  | notImplemented

/-- The function `RequiredArgumentAbsentError`. -/
def RequiredArgumentAbsentError (methodName requiredArgName : String) : FlMethodResponse :=
  let methodName := methodName ++ "_error"
  let requiredArgName := requiredArgName ++ " is absent, which is required for this operation"
  FlMethodResponse.error methodName requiredArgName none

/-- The function `RequiredArgumentTypeError`. -/
def RequiredArgumentTypeError (methodName requiredArgName : String) : FlMethodResponse :=
  let methodName := methodName ++ "_error"
  let requiredArgName := requiredArgName ++ " has wrong type, which is required for this operation"
  FlMethodResponse.error methodName requiredArgName none

/-- The function `OptionalArgument`.  The argument is passed by reference and is
reset to a null pointer when it holds the null value, so the embedding returns
the response together with the argument's new value. -/
def OptionalArgument (funcName argName : String) (arg : Option FlValue)
    (requiredType : FlValueType) : Option FlMethodResponse × Option FlValue :=
  match arg with
  | some _ =>
    let type := fl_value_get_type arg
    if type = FlValueType.NULL then (none, none)
    else if type = requiredType then (none, arg)
    else (some (RequiredArgumentTypeError funcName argName), arg)
  | none => (none, arg)

/-- The function `RequireArgument`. -/
def RequireArgument (funcName argName : String) (arg : Option FlValue)
    (requiredType : FlValueType) : Option FlMethodResponse :=
  match arg with
  | none => some (RequiredArgumentAbsentError funcName argName)
  | some _ =>
    if fl_value_get_type arg ≠ requiredType then some (RequiredArgumentTypeError funcName argName)
    else none

/-! ## Notifications and icons -/

/-- A `GIcon` as the plugin builds it: from a file, from bytes, or themed. -/
inductive GIcon where
  | file (path : String)
  | bytes (data : List Nat)
  | themed (name : String)
  deriving DecidableEq, Repr

/-- The function `CreateIconFromFlValue`.  The `switch` runs over the integer
cast to `IconSource` (`File = 0`, `Bytes = 1`, `Theme = 2`). -/
def CreateIconFromFlValue (v : Option FlValue) : Option GIcon :=
  let icon := fl_value_lookup_string v "icon"
  let source := fl_value_lookup_string v "iconSource"
  if icon.isNone || source.isNone || fl_value_get_type source != FlValueType.INT then none
  else
    let src := fl_value_get_int source
    if src = 0 then
      match icon with
      | some (.string iconFilePath) => some (GIcon.file iconFilePath)
      | _ => none
    else if src = 1 then
      match icon with
      | some (.uint8List data) => some (GIcon.bytes data)
      | _ => none
    else if src = 2 then
      match icon with
      | some (.string themeName) => some (GIcon.themed themeName)
      | _ => none
    else none

/-- A button of a notification: its label and the target `(id, payload)` of the
action `app.flutter-local-notifications-action`. -/
structure GNotificationButton where
  label : String
  id : Int
  payload : String
  deriving DecidableEq, Repr

/-- A `GNotification` as `buildNotification` fills it in.  The default action is
always `app.flutter-local-notifications-action`, with target `(id, payload)`.
The strings are `const char*` in the source, hence optional. -/
structure GNotification where
  title : Option String
  body : Option String
  id : Int
  payload : Option String
  icon : Option GIcon
  buttons : List GNotificationButton
  deriving DecidableEq, Repr

/-- One round of the button loop of `buildNotification`.  The source asserts
that the entry is a map and then reads the two strings without a check; the
embedding aborts where the assertion fails or a string is missing. -/
def buildButton (id : Int) (button : FlValue) : Option GNotificationButton :=
  if fl_value_get_type (some button) ≠ FlValueType.MAP then none
  else
    match fl_value_get_string (fl_value_lookup_string (some button) "buttonLabel"),
      fl_value_get_string (fl_value_lookup_string (some button) "payload") with
    | some label, some buttonPayload => some { label := label, id := id, payload := buttonPayload }
    | _, _ => none

/-- The method `buildNotification`; `none` when an assertion of the button loop
fails. -/
def buildNotification (default_icon : Option GIcon) (id : Int) (title body payload : Option String)
    (platformSpecifics : Option FlValue) : Option GNotification :=
  match platformSpecifics with
  | some _ =>
    let icon := fl_value_lookup_string platformSpecifics "icon"
    let usingIcon : Option GIcon :=
      if icon.isSome && fl_value_get_type icon == FlValueType.MAP then CreateIconFromFlValue icon
      else none
    let usingIcon := if usingIcon.isNone && default_icon.isSome then default_icon else usingIcon
    let buttons := fl_value_lookup_string platformSpecifics "buttons"
    match buttons with
    | some (.list l) =>
      match l.mapM (buildButton id) with
      | some bs =>
        some { title := title, body := body, id := id, payload := payload, icon := usingIcon,
               buttons := bs }
      | none => none
    | _ =>
      some { title := title, body := body, id := id, payload := payload, icon := usingIcon,
             buttons := [] }
  | none =>
    some { title := title, body := body, id := id, payload := payload, icon := default_icon,
           buttons := [] }

/-! ## Plugin state, main loop and notification surface -/

/-- The three callbacks the plugin hands to the main loop, with what each one
captures besides the notification and its key.
* `periodic`: the lambda of `doPeriodicallyShow`, and the inner lambda of the
  recurring branch of `doZonedSchedule`; sends and returns `TRUE`.
* `zonedFirst`: the outer lambda of the recurring branch of `doZonedSchedule`.
* `oneShot`: the lambda of the one-shot branch of `doZonedSchedule`. -/
inductive TimerCallback where
  | periodic
  | zonedFirst (repeatInterval : Nat) (id : Int)
  | oneShot (id : Int)
  deriving DecidableEq, Repr

/-- An armed timeout source of the GLib main loop: its source id, its interval
in seconds (a `guint`), its callback and the data the callback was given. -/
structure TimeoutSource where
  taskId : Nat
  interval : Nat
  callback : TimerCallback
  notification : GNotification
  notificationId : String
  deriving DecidableEq, Repr

/-- The plugin instance together with the parts of its environment that it
acts on.  `default_icon`, `notifications` and `periodic_notification_map` are
the fields of `_FlutterLocalNotificationsPlugin`; `sources` and `next_source_id`
are the main loop (armed timeout sources, and the counter source ids are drawn
from); `sent` logs every `g_application_send_notification`, and `visible` is the
desktop surface, one slot per key. -/
structure PluginState where
  default_icon : Option GIcon
  notifications : List Int
  periodic_notification_map : List (Int × Nat)
  sources : List TimeoutSource
  next_source_id : Nat
  sent : List (String × GNotification)
  visible : List (String × GNotification)
  deriving DecidableEq, Repr

/-- The state set up by `flutter_local_notifications_plugin_init`: no icon, an
empty vector, an empty map; nothing armed, nothing shown. -/
def flutter_local_notifications_plugin_init : PluginState :=
  { default_icon := none, notifications := [], periodic_notification_map := [],
    sources := [], next_source_id := 1, sent := [], visible := [] }

/-! ### `std::unordered_map<int64_t, int>` -/

/-- Member `find`: the entry stored under the key. -/
def unordered_map_find (m : List (Int × Nat)) (key : Int) : Option (Int × Nat) :=
  m.find? (fun e => e.1 == key)

/-- Member `emplace`: inserts only if the key has no entry yet. -/
def unordered_map_emplace (m : List (Int × Nat)) (key : Int) (value : Nat) : List (Int × Nat) :=
  if (unordered_map_find m key).isSome then m else m ++ [(key, value)]

/-- Member `insert_or_assign`: overwrites the entry of the key, or inserts. -/
def unordered_map_insert_or_assign (m : List (Int × Nat)) (key : Int) (value : Nat) :
    List (Int × Nat) :=
  if (unordered_map_find m key).isSome then
    m.map (fun e => if e.1 == key then (key, value) else e)
  else m ++ [(key, value)]

/-- Member `erase` by key. -/
def unordered_map_erase (m : List (Int × Nat)) (key : Int) : List (Int × Nat) :=
  m.filter (fun e => e.1 != key)

/-! ### GLib and GIO -/

/-- The conversion of a 64-bit integer to `guint`. -/
def to_guint (x : Int) : Nat := (x % 2 ^ 32).toNat

/-- GLib `g_timeout_add_seconds_full` (and `g_timeout_add_seconds`): arms a
source and returns its id. -/
def g_timeout_add_seconds_full (s : PluginState) (interval : Nat) (callback : TimerCallback)
    (notification : GNotification) (notificationId : String) : Nat × PluginState :=
  let taskId := s.next_source_id
  (taskId,
    { s with
      sources := s.sources ++ [{ taskId := taskId, interval := interval, callback := callback,
                                 notification := notification, notificationId := notificationId }]
      next_source_id := taskId + 1 })

/-- GLib `g_source_remove`: the source with that id is no longer armed. -/
def g_source_remove (s : PluginState) (tag : Nat) : PluginState :=
  { s with sources := s.sources.filter (fun t => t.taskId != tag) }

/-- GIO `g_application_send_notification`: shows the notification in the slot
of its key, replacing what the slot held. -/
def g_application_send_notification (s : PluginState) (id : String) (notification : GNotification) :
    PluginState :=
  { s with
    sent := s.sent ++ [(id, notification)]
    visible := s.visible.filter (fun e => e.1 != id) ++ [(id, notification)] }

/-- GIO `g_application_withdraw_notification`. -/
def g_application_withdraw_notification (s : PluginState) (id : String) : PluginState :=
  { s with visible := s.visible.filter (fun e => e.1 != id) }

/-- The key of a notification on the desktop surface:
`"flutter_local_notifications#" + std::to_string(id)`. -/
def notificationKey (id : Int) : String := "flutter_local_notifications#" ++ toString id

/-! ## Scheduling -/

/-- The method `doPeriodicallyShow`. -/
def doPeriodicallyShow (s : PluginState) (id : Int) (notification : GNotification)
    (notificationId : String) (repeatInterval : RepeatInterval) : PluginState :=
  let (taskId, s) := g_timeout_add_seconds_full s (to_guint repeatInterval.value)
    TimerCallback.periodic notification notificationId
  { s with periodic_notification_map := unordered_map_emplace s.periodic_notification_map id taskId }

/-- The method `doZonedSchedule`; `none` when `assert(diff > 0)` fails. -/
def doZonedSchedule (s : PluginState) (id : Int) (notification : GNotification)
    (notificationId : String) (now scheduledDateTime : GDateTime)
    (matchDateTimeComponents : Option DateTimeComponents) : Option PluginState :=
  match matchDateTimeComponents with
  | some matchDateTimeComponentsValue =>
    let nextNotifyTime := GetNextNotifyTime now scheduledDateTime matchDateTimeComponentsValue
    let initialDiff := g_date_time_to_unix nextNotifyTime - g_date_time_to_unix now
    let repeatInterval : Nat :=
      to_guint (if matchDateTimeComponentsValue = DateTimeComponents.Time
        then RepeatInterval.Daily.value else RepeatInterval.Weekly.value)
    let (taskId, s) := g_timeout_add_seconds_full s (to_guint initialDiff)
      (TimerCallback.zonedFirst repeatInterval id) notification notificationId
    some { s with
      periodic_notification_map := unordered_map_emplace s.periodic_notification_map id taskId }
  | none =>
    let diff := g_date_time_to_unix scheduledDateTime - g_date_time_to_unix now
    if diff > 0 then
      let (taskId, s) := g_timeout_add_seconds_full s (to_guint diff)
        (TimerCallback.oneShot id) notification notificationId
      some { s with
        periodic_notification_map := unordered_map_emplace s.periodic_notification_map id taskId }
    else none

/-- The body of a timer callback, run on the state; the Boolean is the
callback's return value (`TRUE` keeps the source armed). -/
def TimeoutSource.run (src : TimeoutSource) (s : PluginState) : PluginState × Bool :=
  match src.callback with
  | .periodic =>
    (g_application_send_notification s src.notificationId src.notification, true)
  | .zonedFirst repeatInterval id =>
    let s := g_application_send_notification s src.notificationId src.notification
    let (taskId, s) := g_timeout_add_seconds_full s repeatInterval TimerCallback.periodic
      src.notification src.notificationId
    ({ s with
       periodic_notification_map :=
         unordered_map_insert_or_assign s.periodic_notification_map id taskId }, false)
  | .oneShot id =>
    let s := g_application_send_notification s src.notificationId src.notification
    ({ s with periodic_notification_map := unordered_map_erase s.periodic_notification_map id },
      false)

/-- One fire of the timer `taskId`: the main loop runs the callback of the armed
source and destroys the source when the callback returns `FALSE`.  A source that
is not armed does not fire. -/
def fire (s : PluginState) (taskId : Nat) : PluginState :=
  match s.sources.find? (fun t => t.taskId == taskId) with
  | none => s
  | some src =>
    let (s, keep) := src.run s
    if keep then s else g_source_remove s taskId

/-! ## Method handlers -/

/-- The method `initialize` (the bare word is reserved in Lean).  Registering
the action entry with the application has no effect on the state kept here. -/
def initializePlugin (s : PluginState) (args : Option FlValue) : PluginState × FlMethodResponse :=
  let s :=
    if args.isSome && fl_value_get_type args == FlValueType.MAP then
      let defaultIconValue := fl_value_lookup_string args "defaultIcon"
      let s :=
        if defaultIconValue.isSome && fl_value_get_type defaultIconValue == FlValueType.MAP then
          { s with default_icon := CreateIconFromFlValue defaultIconValue }
        else s
      match fl_value_lookup_string args "knownShowingNotifications" with
      | some (.int64List knownShowingNotificationsValue) =>
        { s with notifications := knownShowingNotificationsValue }
      | _ => s
    else s
  (s, FlMethodResponse.success none)

/-- The `struct CommonArguments`. -/
structure CommonArguments where
  id : Int
  title : Option String
  body : Option String
  payload : Option String
  platformSpecifics : Option FlValue

/-- The method `getCommonArguments`.  `RequireArg` and `OptionalArg` pass
`__func__`, which inside this method is `getCommonArguments`. -/
def getCommonArguments (args : Option FlValue) : Sum FlMethodResponse CommonArguments :=
  let id := fl_value_lookup_string args "id"
  match RequireArgument "getCommonArguments" "id" id FlValueType.INT with
  | some resp => Sum.inl resp
  | none =>
  match OptionalArgument "getCommonArguments" "title" (fl_value_lookup_string args "title")
    FlValueType.STRING with
  | (some resp, _) => Sum.inl resp
  | (none, title) =>
  match OptionalArgument "getCommonArguments" "body" (fl_value_lookup_string args "body")
    FlValueType.STRING with
  | (some resp, _) => Sum.inl resp
  | (none, body) =>
  let payload := fl_value_lookup_string args "payload"
  match RequireArgument "getCommonArguments" "payload" payload FlValueType.STRING with
  | some resp => Sum.inl resp
  | none =>
  match OptionalArgument "getCommonArguments" "platformSpecifics"
    (fl_value_lookup_string args "platformSpecifics") FlValueType.MAP with
  | (some resp, _) => Sum.inl resp
  | (none, platformSpecifics) =>
  let idValue := fl_value_get_int id
  let titleValue := if title.isSome then fl_value_get_string title else some ""
  let bodyValue := if body.isSome then fl_value_get_string body else none
  let payloadValue := fl_value_get_string payload
  Sum.inr { id := idValue, title := titleValue, body := bodyValue, payload := payloadValue,
            platformSpecifics := platformSpecifics }

/-- The method `show`; `none` when an assertion fails. -/
def «show» (s : PluginState) (args : Option FlValue) : Option (PluginState × FlMethodResponse) :=
  match RequireArgument "show" "args" args FlValueType.MAP with
  | some resp => some (s, resp)
  | none =>
  match getCommonArguments args with
  | Sum.inl resp => some (s, resp)
  | Sum.inr c =>
  match buildNotification s.default_icon c.id c.title c.body c.payload c.platformSpecifics with
  | none => none
  | some notification =>
    let notificationIdString := notificationKey c.id
    let s := g_application_send_notification s notificationIdString notification
    some ({ s with notifications := s.notifications ++ [c.id] }, FlMethodResponse.success none)

/-- The method `periodicallyShow`; `none` when an assertion fails.  The
comparison with `std::size(RepeatIntervalMap)` converts the index to an
unsigned type, which changes only negative indices, and those the first
disjunct has caught. -/
def periodicallyShow (s : PluginState) (args : Option FlValue) :
    Option (PluginState × FlMethodResponse) :=
  match RequireArgument "periodicallyShow" "args" args FlValueType.MAP with
  | some resp => some (s, resp)
  | none =>
  match getCommonArguments args with
  | Sum.inl resp => some (s, resp)
  | Sum.inr c =>
  let repeatInterval := fl_value_lookup_string args "repeatInterval"
  match RequireArgument "periodicallyShow" "repeatInterval" repeatInterval FlValueType.INT with
  | some resp => some (s, resp)
  | none =>
  let repeatIntervalIndex := fl_value_get_int repeatInterval
  if repeatIntervalIndex < 0 ∨ repeatIntervalIndex ≥ (RepeatIntervalMap.length : Int) then
    some (s, FlMethodResponse.error "show_error" "repeatInterval is not in valid range" none)
  else
  match RepeatIntervalMap[repeatIntervalIndex.toNat]? with
  | none => none
  | some repeatIntervalValue =>
  match buildNotification s.default_icon c.id c.title c.body c.payload c.platformSpecifics with
  | none => none
  | some notification =>
    let notificationIdString := notificationKey c.id
    some (doPeriodicallyShow s c.id notification notificationIdString repeatIntervalValue,
      FlMethodResponse.success none)

/-- The cast `static_cast<DateTimeComponents>(...)` of the argument
`matchDateTimeComponents`.  An integer that is no enumerator makes
`GetNextNotifyTime`, the first thing `doZonedSchedule` calls with it, fail
`assert(!"Invalid component")`; `none` stands for that. -/
def DateTimeComponents.ofInt (i : Int) : Option DateTimeComponents :=
  if i = 0 then some DateTimeComponents.Time
  else if i = 1 then some DateTimeComponents.DayOfWeekAndTime
  else none

/-- The method `zonedSchedule`, in the configuration where GLib is 2.58 or
newer; `none` when an assertion fails.  `realScheduledDateTime` is what
`g_date_time_new_from_iso8601` made of the argument `scheduledDateTime` in the
named time zone, and `now` is what `g_date_time_new_now` returned. -/
def zonedSchedule (s : PluginState) (args : Option FlValue)
    (realScheduledDateTime : Option GDateTime) (now : GDateTime) :
    Option (PluginState × FlMethodResponse) :=
  match RequireArgument "zonedSchedule" "args" args FlValueType.MAP with
  | some resp => some (s, resp)
  | none =>
  match getCommonArguments args with
  | Sum.inl resp => some (s, resp)
  | Sum.inr c =>
  let timeZoneName := fl_value_lookup_string args "timeZoneName"
  match RequireArgument "zonedSchedule" "timeZoneName" timeZoneName FlValueType.STRING with
  | some resp => some (s, resp)
  | none =>
  let scheduledDateTime := fl_value_lookup_string args "scheduledDateTime"
  match RequireArgument "zonedSchedule" "scheduledDateTime" scheduledDateTime FlValueType.STRING with
  | some resp => some (s, resp)
  | none =>
  match OptionalArgument "zonedSchedule" "matchDateTimeComponents"
    (fl_value_lookup_string args "matchDateTimeComponents") FlValueType.INT with
  | (some resp, _) => some (s, resp)
  | (none, matchDateTimeComponents) =>
  match realScheduledDateTime with
  | none => none
  | some realScheduledDateTime =>
  match buildNotification s.default_icon c.id c.title c.body c.payload c.platformSpecifics with
  | none => none
  | some notification =>
    let notificationIdString := notificationKey c.id
    let components : Option (Option DateTimeComponents) :=
      match matchDateTimeComponents with
      | some _ => (DateTimeComponents.ofInt (fl_value_get_int matchDateTimeComponents)).map some
      | none => some none
    match components with
    | none => none
    | some components =>
      (doZonedSchedule s c.id notification notificationIdString now realScheduledDateTime
        components).map (fun s => (s, FlMethodResponse.success none))

/-- The method `cancel`. -/
def cancel (s : PluginState) (args : Option FlValue) : PluginState × FlMethodResponse :=
  match RequireArgument "cancel" "args" args FlValueType.INT with
  | some resp => (s, resp)
  | none =>
    let id := fl_value_get_int args
    let s :=
      match unordered_map_find s.periodic_notification_map id with
      | some iter =>
        let s := g_source_remove s iter.2
        { s with periodic_notification_map := unordered_map_erase s.periodic_notification_map id }
      | none => s
    (g_application_withdraw_notification s (notificationKey id), FlMethodResponse.success none)

/-- The method `cancelAll`.  The map is walked in the order it is stored in. -/
def cancelAll (s : PluginState) : PluginState × FlMethodResponse :=
  let s := s.notifications.foldl
    (fun s id => g_application_withdraw_notification s (notificationKey id)) s
  let cancelledNotifications := s.notifications
  let s := { s with notifications := [] }
  let (s, cancelledNotifications) := s.periodic_notification_map.foldl
    (fun (acc : PluginState × List Int) (e : Int × Nat) =>
      (g_application_withdraw_notification (g_source_remove acc.1 e.2) (notificationKey e.1),
        acc.2 ++ [e.1]))
    (s, cancelledNotifications)
  let s := { s with periodic_notification_map := [] }
  (s, FlMethodResponse.success (some (FlValue.int64List cancelledNotifications)))

/-- The function `flutter_local_notifications_plugin_handle_method_call`: the
dispatch on the method name. -/
def flutter_local_notifications_plugin_handle_method_call (s : PluginState) (method : String)
    (args : Option FlValue) (realScheduledDateTime : Option GDateTime) (now : GDateTime) :
    Option (PluginState × FlMethodResponse) :=
  if method = "initialize" then some (initializePlugin s args)
  else if method = "show" then «show» s args
  else if method = "periodicallyShow" then periodicallyShow s args
  else if method = "zonedSchedule" then zonedSchedule s args realScheduledDateTime now
  else if method = "cancel" then some (cancel s args)
  else if method = "cancelAll" then some (cancelAll s)
  else some (s, FlMethodResponse.notImplemented)

/-- What can happen to the plugin: a method call arrives (with what the clock
and the date parser would answer during it), or an armed timer fires. -/
inductive Event where
  | call (method : String) (args : Option FlValue) (realScheduledDateTime : Option GDateTime)
      (now : GDateTime)
  | fire (taskId : Nat)

/-- One atomic step of the event loop; `none` when the process aborts. -/
def step (s : PluginState) : Event → Option PluginState
  | .call method args realScheduledDateTime now =>
    (flutter_local_notifications_plugin_handle_method_call s method args realScheduledDateTime
      now).map Prod.fst
  | .fire taskId => some (fire s taskId)

/-- A run of the event loop over a list of events, from a given state. -/
def run (s : PluginState) : List Event → Option PluginState
  | [] => some s
  | e :: es => (step s e).bind (fun s => run s es)

/-- The list of ids a response carries as its result (empty when it carries
none): what `cancelAll` hands back to the caller. -/
def FlMethodResponse.returnedIds : FlMethodResponse → List Int
  | .success (some (.int64List l)) => l
  | _ => []

/-- The main loop draws source ids from a counter, so every armed source has an
id below the counter's next value. -/
def SourceIdsFresh (s : PluginState) : Prop :=
  ∀ t ∈ s.sources, t.taskId < s.next_source_id

instance (s : PluginState) : Decidable (SourceIdsFresh s) :=
  inferInstanceAs (Decidable (∀ t ∈ s.sources, t.taskId < s.next_source_id))

/-- The state after `k` consecutive fires of the timer `taskId`. -/
def fireTimes (taskId : Nat) : Nat → PluginState → PluginState
  | 0, s => s
  | k + 1, s => fireTimes taskId k (fire s taskId)

/-! ## Specification of the remainder, and the invariant of the event loop -/

/-- From the claim's words: `r` is the Euclidean remainder of `a` by `|b|`, that
is `0 <= r < |b|` and `r` is congruent to `a` modulo `|b|`. -/
def IsEuclideanRemainder (a b r : Int) : Prop :=
  0 ≤ r ∧ r < |b| ∧ (a - r) % |b| = 0

/-- From the claim's words: the Euclidean remainder of `a` by `|b|`, computed
with the remainder of `Int`, which is the Euclidean one. -/
def EuclideanRemainder (a b : Int) : Int := Int.emod a |b|

/-- From the claim's words: what `Mod` in `NoZero` mode is to return, the
Euclidean remainder except that `|b|` stands where the remainder is `0`. -/
def ModNoZeroSpec (a b : Int) : Int :=
  if EuclideanRemainder a b = 0 then |b| else EuclideanRemainder a b

/-- A timeout source is coherent when its key is the key of the id its
notification was built for, and the id its callback captured is that same id. -/
def TimeoutSource.Coherent (t : TimeoutSource) : Prop :=
  t.notificationId = notificationKey t.notification.id ∧
  match t.callback with
  | .periodic => True
  | .zonedFirst _ id => id = t.notification.id
  | .oneShot id => id = t.notification.id

/-- The armed sources are in order: ids below the counter, no id twice, every
source coherent. -/
def SourcesOk (s : PluginState) : Prop :=
  SourceIdsFresh s ∧ (s.sources.map TimeoutSource.taskId).Nodup ∧
  ∀ t ∈ s.sources, t.Coherent

/-- The registry is in order: no id twice, and every entry `id -> handle` names
an armed source whose notification was built for `id`. -/
def RegistryOk (s : PluginState) : Prop :=
  (s.periodic_notification_map.map Prod.fst).Nodup ∧
  ∀ e ∈ s.periodic_notification_map,
    ∃ t ∈ s.sources, t.taskId = e.2 ∧ t.notification.id = e.1

/-- The invariant of the event loop: sources and registry are both in order. -/
def RegistryInvariant (s : PluginState) : Prop :=
  SourcesOk s ∧ RegistryOk s

/-! ## Concrete inputs used in the examples -/

/-- The instant `t` in UTC. -/
def utc (t : Int) : GDateTime := { unix := t, timezone := "UTC" }

/-- The arguments of a `show` call with an id and the payload `"p"`. -/
def showArgs (id : Int) : Option FlValue :=
  some (FlValue.map [(FlValue.string "id", FlValue.int id),
    (FlValue.string "payload", FlValue.string "p")])

/-- The arguments of a `periodicallyShow` call. -/
def periodicArgs (id repeatInterval : Int) : Option FlValue :=
  some (FlValue.map [(FlValue.string "id", FlValue.int id),
    (FlValue.string "payload", FlValue.string "p"),
    (FlValue.string "repeatInterval", FlValue.int repeatInterval)])

/-- The arguments of a `zonedSchedule` call without `matchDateTimeComponents`. -/
def zonedArgs (id : Int) (scheduledDateTime : String) : Option FlValue :=
  some (FlValue.map [(FlValue.string "id", FlValue.int id),
    (FlValue.string "payload", FlValue.string "p"),
    (FlValue.string "timeZoneName", FlValue.string "UTC"),
    (FlValue.string "scheduledDateTime", FlValue.string scheduledDateTime)])

/-- The notification `buildNotification` makes of `showArgs`, `periodicArgs` or
`zonedArgs` when no default icon is set. -/
def plainNotification (id : Int) : GNotification :=
  { title := some "", body := none, id := id, payload := some "p", icon := none, buttons := [] }

/-- The state reached from the initial one by `show` with id 5 followed by
`periodicallyShow` with id 2 every minute. -/
def busyState : PluginState :=
  { default_icon := none,
    notifications := [5],
    periodic_notification_map := [(2, 1)],
    sources := [{ taskId := 1, interval := 60, callback := TimerCallback.periodic,
                  notification := plainNotification 2,
                  notificationId := "flutter_local_notifications#2" }],
    next_source_id := 2,
    sent := [("flutter_local_notifications#5", plainNotification 5)],
    visible := [("flutter_local_notifications#5", plainNotification 5)] }

/-! ## Theorems: recurrence calculator -/

/-- The truncating remainder by a positive divisor stays above `-b`. -/
theorem tmod_gt_neg (a b : Int) (hb : 0 < b) : -b < Int.tmod a b := by
  obtain ⟨n, rfl⟩ := Int.eq_ofNat_of_zero_le hb.le
  have hn : 0 < n := by exact_mod_cast hb
  cases a with
  | ofNat m =>
    have h0 : (0 : Int) ≤ Int.tmod (Int.ofNat m) (n : Int) := Int.tmod_nonneg _ (Int.ofNat_nonneg m)
    have : -(n : Int) < 0 := by omega
    omega
  | negSucc m =>
    have hlt : (m + 1) % n < n := Nat.mod_lt _ hn
    have : Int.tmod (Int.negSucc m) (n : Int) = -(((m + 1) % n : Nat) : Int) := rfl
    rw [this]
    omega

/-- In `Normal` mode and for a positive divisor, `Mod` is the Euclidean
remainder. -/
theorem Mod_Normal_of_pos (a b : Int) (hb : 0 < b) : Mod ModType.Normal a b = a % b := by
  have hnat : ((Int.natAbs b : Nat) : Int) = b := Int.natAbs_of_nonneg hb.le
  have hlo := tmod_gt_neg a b hb
  have hhi := Int.tmod_lt_of_pos a hb
  have hdiv := Int.tmod_add_tdiv a b
  simp only [Mod, hnat]
  by_cases h : Int.tmod a b < 0
  · simp only [h, decide_True, if_true]
    have e : a = (Int.tmod a b + b) + b * (Int.tdiv a b - 1) := by
      rw [Int.mul_sub, Int.mul_one]; omega
    conv_rhs => rw [e]
    rw [Int.add_mul_emod_self_left]
    exact (Int.emod_eq_of_lt (by omega) (by omega)).symm
  · simp only [h, decide_False, Bool.false_eq_true, if_false]
    have e : a = Int.tmod a b + b * Int.tdiv a b := by omega
    conv_rhs => rw [e]
    rw [Int.add_mul_emod_self_left]
    exact (Int.emod_eq_of_lt (by omega) (by omega)).symm

theorem GetNextNotifyTime_unix (now value : GDateTime) (g : DateTimeComponents) :
    (GetNextNotifyTime now value g).unix = now.unix + (value.unix - now.unix) % g.period := by
  cases g
  · simp only [GetNextNotifyTime, g_date_time_to_timezone, g_date_time_new_from_unix_utc,
      g_date_time_to_unix, DateTimeComponents.period]
    rw [Mod_Normal_of_pos _ _ (by decide)]
    rfl
  · simp only [GetNextNotifyTime, g_date_time_to_timezone, g_date_time_new_from_unix_utc,
      g_date_time_to_unix, DateTimeComponents.period]
    rw [Mod_Normal_of_pos _ _ (by decide)]
    rfl

theorem GetNextNotifyTime_timezone (now value : GDateTime) (g : DateTimeComponents) :
    (GetNextNotifyTime now value g).timezone = now.timezone := by
  cases g <;> rfl

/-- C1, counterexample.  With `target == now` the calculator returns `now`
itself: the delay is `0`, not a full period. -/
theorem GetNextNotifyTime_target_eq_now_returns_now :
    GetNextNotifyTime (utc 1700000000) (utc 1700000000) DateTimeComponents.Time = utc 1700000000 ∧
    ¬ (0 < g_date_time_to_unix
          (GetNextNotifyTime (utc 1700000000) (utc 1700000000) DateTimeComponents.Time)
        - g_date_time_to_unix (utc 1700000000)) ∧
    g_date_time_to_unix
        (GetNextNotifyTime (utc 1700000000) (utc 1700000000) DateTimeComponents.Time)
      ≠ g_date_time_to_unix (utc 1700000000) + 86400 := by
  decide

/-- C1, amended.  For all instants `now` and `target` and each granularity `g`
with period `P`, the number of seconds `GetNextNotifyTime(now, target, g) - now`
lies in the half-open interval `[0, P)`: the result is never earlier than `now`
and less than one period after it.  It is `0` exactly when `target - now` is a
multiple of `P`, and when `target == now` the result is `now` itself. -/
theorem GetNextNotifyTime_sub_now_mem_Ico (now target : GDateTime) (g : DateTimeComponents) :
    0 ≤ g_date_time_to_unix (GetNextNotifyTime now target g) - g_date_time_to_unix now ∧
    g_date_time_to_unix (GetNextNotifyTime now target g) - g_date_time_to_unix now < g.period ∧
    (g_date_time_to_unix (GetNextNotifyTime now target g) - g_date_time_to_unix now = 0 ↔
      g.period ∣ g_date_time_to_unix target - g_date_time_to_unix now) ∧
    GetNextNotifyTime now now g = now := by
  have hP : 0 < g.period := by cases g <;> decide
  have hu := GetNextNotifyTime_unix now target g
  have hz := GetNextNotifyTime_timezone now target g
  have h0 := Int.emod_nonneg (target.unix - now.unix) hP.ne'
  have h1 := Int.emod_lt_of_pos (target.unix - now.unix) hP
  simp only [g_date_time_to_unix]
  refine ⟨by omega, by omega, ?_, ?_⟩
  · rw [Int.dvd_iff_emod_eq_zero]
    constructor <;> intro h <;> omega
  · have hu' := GetNextNotifyTime_unix now now g
    have hz' := GetNextNotifyTime_timezone now now g
    rw [sub_self, Int.zero_emod, add_zero] at hu'
    cases hr : GetNextNotifyTime now now g with
    | mk u z =>
      rw [hr] at hu' hz'
      cases now with
      | mk nu nz =>
        simp only at hu' hz'
        rw [hu', hz']

/-- C2.  For all instants `now` and `target` and each granularity `g` with
period `P`, the Unix time of `GetNextNotifyTime(now, target, g)` differs from
the Unix time of `target` by an integer multiple of `P`:
`(result - target) mod P == 0`. -/
theorem GetNextNotifyTime_sub_target_mod_period (now target : GDateTime)
    (g : DateTimeComponents) :
    (g_date_time_to_unix (GetNextNotifyTime now target g) - g_date_time_to_unix target)
      % g.period = 0 := by
  have hu := GetNextNotifyTime_unix now target g
  simp only [g_date_time_to_unix]
  rw [hu]
  have hd := Int.emod_add_ediv (target.unix - now.unix) g.period
  have e : now.unix + (target.unix - now.unix) % g.period - target.unix
      = g.period * (-((target.unix - now.unix) / g.period)) := by
    rw [Int.mul_neg]; omega
  rw [e, Int.mul_emod_right]

/-- C3, counterexample.  From `now = 1000` and `target = 5000` the first result
is `r = 5000`; taking `r` as the new `now` gives `r` again, not `r + 86400`. -/
theorem GetNextNotifyTime_reapplied_does_not_advance :
    GetNextNotifyTime (utc 1000) (utc 5000) DateTimeComponents.Time = utc 5000 ∧
    GetNextNotifyTime (GetNextNotifyTime (utc 1000) (utc 5000) DateTimeComponents.Time) (utc 5000)
      DateTimeComponents.Time = utc 5000 ∧
    g_date_time_to_unix
        (GetNextNotifyTime (GetNextNotifyTime (utc 1000) (utc 5000) DateTimeComponents.Time)
          (utc 5000) DateTimeComponents.Time)
      ≠ g_date_time_to_unix (GetNextNotifyTime (utc 1000) (utc 5000) DateTimeComponents.Time)
        + 86400 := by
  decide

/-- C3, amended.  For all instants `now` and `target` and each granularity `g`:
if `r = GetNextNotifyTime(now, target, g)`, then computing the next fire with
`r` taken as the new `now` returns `r` itself, `GetNextNotifyTime(r, target, g) = r`;
it advances by no period. -/
theorem GetNextNotifyTime_reapplied_eq_self (now target : GDateTime) (g : DateTimeComponents) :
    GetNextNotifyTime (GetNextNotifyTime now target g) target g = GetNextNotifyTime now target g := by
  have hP : 0 < g.period := by cases g <;> decide
  have hu := GetNextNotifyTime_unix now target g
  have hu2 := GetNextNotifyTime_unix (GetNextNotifyTime now target g) target g
  have hz2 := GetNextNotifyTime_timezone (GetNextNotifyTime now target g) target g
  have hd := Int.emod_add_ediv (target.unix - now.unix) g.period
  have e : target.unix - (GetNextNotifyTime now target g).unix
      = g.period * ((target.unix - now.unix) / g.period) := by
    rw [hu]; omega
  rw [e, Int.mul_emod_right] at hu2
  cases hr : GetNextNotifyTime now target g with
  | mk u z =>
    rw [hr] at hu2 hz2
    cases hr2 : GetNextNotifyTime ⟨u, z⟩ target g with
    | mk u2 z2 =>
      rw [hr2] at hu2 hz2
      simp only at hu2 hz2
      subst hz2
      congr 1
      omega

/-! ## Theorems: helper lemmas on the plugin state -/

theorem withdraw_foldl_fields (l : List Int) (s : PluginState) :
    (l.foldl (fun s id => g_application_withdraw_notification s (notificationKey id)) s).notifications
        = s.notifications ∧
    (l.foldl (fun s id => g_application_withdraw_notification s (notificationKey id))
        s).periodic_notification_map = s.periodic_notification_map := by
  induction l generalizing s with
  | nil => exact ⟨rfl, rfl⟩
  | cons a l ih =>
    simp only [List.foldl_cons]
    exact ih (g_application_withdraw_notification s (notificationKey a))

theorem cancelAll_foldl_ids (m : List (Int × Nat)) (s : PluginState) (acc : List Int) :
    (m.foldl
      (fun (acc : PluginState × List Int) (e : Int × Nat) =>
        (g_application_withdraw_notification (g_source_remove acc.1 e.2) (notificationKey e.1),
          acc.2 ++ [e.1]))
      (s, acc)).2 = acc ++ m.map Prod.fst := by
  induction m generalizing s acc with
  | nil => simp
  | cons e m ih =>
    simp only [List.foldl_cons, List.map_cons]
    rw [ih]
    simp

theorem cancelAll_foldl_notifications (m : List (Int × Nat)) (s : PluginState) (acc : List Int) :
    (m.foldl
      (fun (acc : PluginState × List Int) (e : Int × Nat) =>
        (g_application_withdraw_notification (g_source_remove acc.1 e.2) (notificationKey e.1),
          acc.2 ++ [e.1]))
      (s, acc)).1.notifications = s.notifications := by
  induction m generalizing s acc with
  | nil => rfl
  | cons e m ih =>
    simp only [List.foldl_cons]
    rw [ih]
    rfl

theorem requireArgument_of_type (f a : String) (arg : Option FlValue) (t : FlValueType)
    (harg : arg.isSome) (ht : fl_value_get_type arg = t) : RequireArgument f a arg t = none := by
  cases arg with
  | none => simp at harg
  | some v => simp [RequireArgument, ht]

theorem isSome_of_type_MAP (args : Option FlValue) (h : fl_value_get_type args = FlValueType.MAP) :
    args.isSome := by
  cases args with
  | none => simp [fl_value_get_type] at h
  | some v => rfl

theorem unordered_map_find_erase (m : List (Int × Nat)) (key : Int) :
    unordered_map_find (unordered_map_erase m key) key = none := by
  simp only [unordered_map_find, unordered_map_erase, List.find?_eq_none]
  intro e he
  rw [List.mem_filter] at he
  simpa using he.2

theorem find_map_assign (m : List (Int × Nat)) (key : Int) (value : Nat)
    (h : (m.find? (fun e => e.1 == key)).isSome) :
    (m.map (fun e => if e.1 == key then (key, value) else e)).find? (fun e => e.1 == key)
      = some (key, value) := by
  induction m with
  | nil => simp at h
  | cons e m ih =>
    by_cases he : e.1 = key
    · simp [he]
    · have hb : (e.1 == key) = false := by simpa using he
      rw [List.find?_cons, hb] at h
      rw [List.map_cons, hb, if_neg (by simp), List.find?_cons, hb]
      exact ih h

theorem unordered_map_find_insert_or_assign (m : List (Int × Nat)) (key : Int) (value : Nat) :
    unordered_map_find (unordered_map_insert_or_assign m key value) key = some (key, value) := by
  unfold unordered_map_insert_or_assign
  by_cases h : (unordered_map_find m key).isSome
  · rw [if_pos h]
    exact find_map_assign m key value h
  · rw [if_neg h]
    have hnone : unordered_map_find m key = none := by simpa using h
    unfold unordered_map_find at hnone ⊢
    rw [List.find?_append, hnone]
    simp [List.find?]

theorem find_source_append_fresh (l : List TimeoutSource) (x : TimeoutSource) (tid : Nat)
    (hl : ∀ t ∈ l, t.taskId < tid) (hx : x.taskId = tid) :
    (l ++ [x]).find? (fun t => t.taskId == tid) = some x := by
  have hnone : l.find? (fun t => t.taskId == tid) = none := by
    rw [List.find?_eq_none]
    intro t ht
    have := hl t ht
    simp only [beq_iff_eq]
    omega
  rw [List.find?_append, hnone]
  simp [List.find?, hx]

theorem filter_sources_fresh (l : List TimeoutSource) (tid : Nat)
    (hl : ∀ t ∈ l, t.taskId < tid) :
    l.filter (fun t => t.taskId != tid) = l := by
  rw [List.filter_eq_self]
  intro t ht
  have := hl t ht
  simp only [bne_iff_ne, ne_eq]
  omega

theorem to_guint_of_lt (x : Int) (h0 : 0 ≤ x) (h1 : x < 2 ^ 32) : (to_guint x : Int) = x := by
  unfold to_guint
  rw [Int.emod_eq_of_lt h0 h1]
  exact Int.toNat_of_nonneg h0

theorem withdraw_withdraw (s : PluginState) (key : String) :
    g_application_withdraw_notification (g_application_withdraw_notification s key) key
      = g_application_withdraw_notification s key := by
  simp only [g_application_withdraw_notification, List.filter_filter, Bool.and_self]

/-- What `cancel` does when its argument is an integer. -/
theorem cancel_int (s : PluginState) (id : Int) :
    cancel s (some (FlValue.int id)) =
      (g_application_withdraw_notification
        (match unordered_map_find s.periodic_notification_map id with
          | some iter =>
            { g_source_remove s iter.2 with
              periodic_notification_map := unordered_map_erase s.periodic_notification_map id }
          | none => s)
        (notificationKey id), FlMethodResponse.success none) := by
  simp only [cancel, RequireArgument, fl_value_get_type, fl_value_get_int, g_source_remove]
  simp

/-- A fire of a source whose callback is the periodic one sends its
notification and changes nothing else. -/
theorem fire_periodic (s : PluginState) (tid : Nat) (src : TimeoutSource)
    (hfind : s.sources.find? (fun t => t.taskId == tid) = some src)
    (hcb : src.callback = TimerCallback.periodic) :
    fire s tid = g_application_send_notification s src.notificationId src.notification := by
  simp only [fire, hfind, TimeoutSource.run, hcb]
  rfl

theorem fireTimes_periodic (tid : Nat) (src : TimeoutSource)
    (hcb : src.callback = TimerCallback.periodic) (k : Nat) (s : PluginState)
    (hfind : s.sources.find? (fun t => t.taskId == tid) = some src) :
    (fireTimes tid k s).sources = s.sources ∧
    (fireTimes tid k s).periodic_notification_map = s.periodic_notification_map ∧
    (fireTimes tid k s).sent
      = s.sent ++ List.replicate k (src.notificationId, src.notification) := by
  induction k generalizing s with
  | zero => simp [fireTimes]
  | succ k ih =>
    have hf := fire_periodic s tid src hfind hcb
    have hfind2 : (fire s tid).sources.find? (fun t => t.taskId == tid) = some src := by
      rw [hf]; exact hfind
    obtain ⟨h1, h2, h3⟩ := ih (fire s tid) hfind2
    simp only [fireTimes]
    rw [h1, h2, h3, hf]
    refine ⟨rfl, rfl, ?_⟩
    simp only [g_application_send_notification, List.replicate_succ, List.append_assoc,
      List.singleton_append]

/-- With valid arguments and an index that selects `r` in `RepeatIntervalMap`,
`periodicallyShow` succeeds with the state `doPeriodicallyShow` builds. -/
theorem periodicallyShow_valid (s : PluginState) (args : Option FlValue)
    (c : CommonArguments) (i : Int) (n : GNotification) (r : RepeatInterval)
    (hmap : fl_value_get_type args = FlValueType.MAP)
    (hcommon : getCommonArguments args = Sum.inr c)
    (hbuild : buildNotification s.default_icon c.id c.title c.body c.payload c.platformSpecifics
      = some n)
    (hri : fl_value_lookup_string args "repeatInterval" = some (FlValue.int i))
    (hlo : 0 ≤ i) (hhi : i ≤ 3) (hr : RepeatIntervalMap[i.toNat]? = some r) :
    periodicallyShow s args
      = some (doPeriodicallyShow s c.id n (notificationKey c.id) r,
          FlMethodResponse.success none) := by
  have h1 := requireArgument_of_type "periodicallyShow" "args" args FlValueType.MAP
    (isSome_of_type_MAP args hmap) hmap
  have h2 : RequireArgument "periodicallyShow" "repeatInterval" (some (FlValue.int i))
      FlValueType.INT = none := by
    simp [RequireArgument, fl_value_get_type]
  have hlen : (RepeatIntervalMap.length : Int) = 4 := rfl
  have hcond : ¬ (i < 0 ∨ i ≥ 4) := by omega
  simp only [periodicallyShow, h1, hcommon, hri, h2, fl_value_get_int, hlen, hcond, if_false,
    hr, hbuild]

/-! ## Theorems: source ids stay below the counter -/

theorem fresh_congr (s s' : PluginState) (h1 : s'.sources = s.sources)
    (h2 : s'.next_source_id = s.next_source_id) (hf : SourceIdsFresh s) : SourceIdsFresh s' := by
  intro t ht
  rw [h1] at ht
  rw [h2]
  exact hf t ht

theorem fresh_remove (s : PluginState) (tag : Nat) (hf : SourceIdsFresh s) :
    SourceIdsFresh (g_source_remove s tag) := by
  intro t ht
  exact hf t (List.mem_filter.mp ht).1

theorem fresh_add (s : PluginState) (interval : Nat) (cb : TimerCallback) (n : GNotification)
    (key : String) (hf : SourceIdsFresh s) :
    SourceIdsFresh (g_timeout_add_seconds_full s interval cb n key).2 := by
  intro t ht
  simp only [g_timeout_add_seconds_full, List.mem_append, List.mem_singleton] at ht ⊢
  rcases ht with ht | ht
  · exact Nat.lt_succ_of_lt (hf t ht)
  · subst ht; exact Nat.lt_succ_self _

theorem fresh_doPeriodicallyShow (s : PluginState) (id : Int) (n : GNotification) (key : String)
    (r : RepeatInterval) (hf : SourceIdsFresh s) :
    SourceIdsFresh (doPeriodicallyShow s id n key r) :=
  fresh_congr _ _ rfl rfl (fresh_add s (to_guint r.value) TimerCallback.periodic n key hf)

theorem fresh_doZonedSchedule (s s' : PluginState) (id : Int) (n : GNotification) (key : String)
    (now target : GDateTime) (g : Option DateTimeComponents)
    (h : doZonedSchedule s id n key now target g = some s') (hf : SourceIdsFresh s) :
    SourceIdsFresh s' := by
  unfold doZonedSchedule at h
  split at h
  · cases h
    exact fresh_congr _ _ rfl rfl (fresh_add s _ _ n key hf)
  · dsimp only at h
    split at h
    · cases h
      exact fresh_congr _ _ rfl rfl (fresh_add s _ _ n key hf)
    · cases h

theorem fresh_fire (s : PluginState) (tid : Nat) (hf : SourceIdsFresh s) :
    SourceIdsFresh (fire s tid) := by
  unfold fire
  split
  · exact hf
  · rename_i src _
    have hrun : SourceIdsFresh (src.run s).1 := by
      unfold TimeoutSource.run
      split
      · exact hf
      · exact fresh_congr _ _ rfl rfl
          (fresh_add (g_application_send_notification s src.notificationId src.notification) _
            TimerCallback.periodic src.notification src.notificationId hf)
      · exact hf
    dsimp only
    split
    · exact hrun
    · exact fresh_remove _ _ hrun

theorem fresh_cancel (s : PluginState) (args : Option FlValue) (hf : SourceIdsFresh s) :
    SourceIdsFresh (cancel s args).1 := by
  unfold cancel
  split
  · exact hf
  · dsimp only
    split
    · exact fresh_congr _ _ rfl rfl (fresh_remove s _ hf)
    · exact hf

theorem fresh_cancelAll_foldl (m : List (Int × Nat)) (s : PluginState) (acc : List Int)
    (hf : SourceIdsFresh s) :
    SourceIdsFresh (m.foldl
      (fun (acc : PluginState × List Int) (e : Int × Nat) =>
        (g_application_withdraw_notification (g_source_remove acc.1 e.2) (notificationKey e.1),
          acc.2 ++ [e.1]))
      (s, acc)).1 := by
  induction m generalizing s acc with
  | nil => exact hf
  | cons e m ih =>
    simp only [List.foldl_cons]
    exact ih _ _ (fresh_congr _ _ rfl rfl (fresh_remove s e.2 hf))

theorem fresh_withdraw_foldl (l : List Int) (s : PluginState) (hf : SourceIdsFresh s) :
    SourceIdsFresh
      (l.foldl (fun s id => g_application_withdraw_notification s (notificationKey id)) s) := by
  induction l generalizing s with
  | nil => exact hf
  | cons a l ih =>
    simp only [List.foldl_cons]
    exact ih _ (fresh_congr _ _ rfl rfl hf)

theorem fresh_cancelAll (s : PluginState) (hf : SourceIdsFresh s) :
    SourceIdsFresh (cancelAll s).1 := by
  have h1 := fresh_withdraw_foldl s.notifications s hf
  have h2 := fresh_cancelAll_foldl
    (s.notifications.foldl (fun s id => g_application_withdraw_notification s (notificationKey id))
      s).periodic_notification_map
    { (s.notifications.foldl
        (fun s id => g_application_withdraw_notification s (notificationKey id)) s) with
      notifications := [] }
    (s.notifications.foldl (fun s id => g_application_withdraw_notification s (notificationKey id))
      s).notifications
    (fresh_congr _ _ rfl rfl h1)
  exact fresh_congr _ _ rfl rfl h2

theorem fresh_initializePlugin (s : PluginState) (args : Option FlValue) (hf : SourceIdsFresh s) :
    SourceIdsFresh (initializePlugin s args).1 := by
  unfold initializePlugin
  dsimp only
  repeat' split
  all_goals exact hf

theorem fresh_show (s s' : PluginState) (args : Option FlValue) (r : FlMethodResponse)
    (h : «show» s args = some (s', r)) (hf : SourceIdsFresh s) : SourceIdsFresh s' := by
  unfold «show» at h
  repeat' split at h
  all_goals first
    | (cases h; exact hf)
    | cases h

theorem fresh_periodicallyShow (s s' : PluginState) (args : Option FlValue) (r : FlMethodResponse)
    (h : periodicallyShow s args = some (s', r)) (hf : SourceIdsFresh s) : SourceIdsFresh s' := by
  unfold periodicallyShow at h
  repeat' (first | split at h | (dsimp only at h; split at h))
  all_goals first
    | (cases h; exact hf)
    | (cases h; exact fresh_doPeriodicallyShow _ _ _ _ _ hf)
    | cases h

theorem fresh_zonedSchedule (s s' : PluginState) (args : Option FlValue)
    (d : Option GDateTime) (now : GDateTime) (r : FlMethodResponse)
    (h : zonedSchedule s args d now = some (s', r)) (hf : SourceIdsFresh s) :
    SourceIdsFresh s' := by
  unfold zonedSchedule at h
  repeat' (first | split at h | (dsimp only at h; split at h))
  all_goals first
    | (cases h; exact hf)
    | cases h
    | (simp only [Option.map_eq_some'] at h
       obtain ⟨s2, h2, h3⟩ := h
       cases h3
       exact fresh_doZonedSchedule _ _ _ _ _ _ _ _ h2 hf)

theorem fresh_step (s s' : PluginState) (e : Event) (h : step s e = some s')
    (hf : SourceIdsFresh s) : SourceIdsFresh s' := by
  cases e with
  | fire tid =>
    simp only [step] at h
    cases h
    exact fresh_fire s tid hf
  | call method args d now =>
    simp only [step, Option.map_eq_some'] at h
    obtain ⟨⟨s2, r⟩, h2, h3⟩ := h
    simp only at h3
    subst h3
    unfold flutter_local_notifications_plugin_handle_method_call at h2
    split_ifs at h2
    · have e := Option.some.inj h2
      have : s2 = (initializePlugin s args).1 := by rw [e]
      rw [this]; exact fresh_initializePlugin s args hf
    · exact fresh_show _ _ _ _ h2 hf
    · exact fresh_periodicallyShow _ _ _ _ h2 hf
    · exact fresh_zonedSchedule _ _ _ _ _ _ h2 hf
    · have e := Option.some.inj h2
      have : s2 = (cancel s args).1 := by rw [e]
      rw [this]; exact fresh_cancel s args hf
    · have e := Option.some.inj h2
      have : s2 = (cancelAll s).1 := by rw [e]
      rw [this]; exact fresh_cancelAll s hf
    · have e := Option.some.inj h2
      have : s2 = s := (congrArg Prod.fst e).symm
      rw [this]; exact hf

/-- Every state the event loop reaches from the initial state keeps the source
ids of its armed timers below the id counter. -/
theorem fresh_run (es : List Event) (s s' : PluginState) (h : run s es = some s')
    (hf : SourceIdsFresh s) : SourceIdsFresh s' := by
  induction es generalizing s with
  | nil =>
    simp only [run] at h
    cases h
    exact hf
  | cons e es ih =>
    simp only [run, Option.bind_eq_some] at h
    obtain ⟨s2, h2, h3⟩ := h
    exact ih s2 h3 (fresh_step s s2 e h2 hf)

theorem fresh_init : SourceIdsFresh flutter_local_notifications_plugin_init := by
  decide

/-- The example state `busyState` is one the event loop reaches. -/
theorem busyState_reachable :
    run flutter_local_notifications_plugin_init
      [Event.call "show" (showArgs 5) none (utc 0),
       Event.call "periodicallyShow" (periodicArgs 2 0) none (utc 0)] = some busyState := by
  decide

/-! ## Theorems: the one-shot branch on an unregistered id -/

theorem unordered_map_find_emplace_absent (m : List (Int × Nat)) (key : Int) (value : Nat)
    (h : unordered_map_find m key = none) :
    unordered_map_emplace m key value = m ++ [(key, value)] ∧
    unordered_map_find (unordered_map_emplace m key value) key = some (key, value) := by
  have e : unordered_map_emplace m key value = m ++ [(key, value)] := by
    simp [unordered_map_emplace, h]
  refine ⟨e, ?_⟩
  rw [e]
  unfold unordered_map_find at h ⊢
  rw [List.find?_append, h]
  simp [List.find?]

/-- The one-shot branch of `doZonedSchedule` where neither slip bites: the id
has no registry entry yet and the delay fits a `guint`.  The timer is armed with
delay `target - now` and recorded under the id; its fire sends the notification
once, the timer is gone afterwards and so is the registry entry. -/
theorem doZonedSchedule_oneShot_unregistered_id (s : PluginState) (id : Int) (n : GNotification)
    (key : String) (now target : GDateTime)
    (hfresh : SourceIdsFresh s)
    (habsent : unordered_map_find s.periodic_notification_map id = none)
    (hpos : 0 < g_date_time_to_unix target - g_date_time_to_unix now)
    (hfit : g_date_time_to_unix target - g_date_time_to_unix now < 2 ^ 32) :
    ∃ (s1 : PluginState) (delay : Nat),
      doZonedSchedule s id n key now target none = some s1 ∧
      (delay : Int) = g_date_time_to_unix target - g_date_time_to_unix now ∧
      s1.sources = s.sources ++
        [{ taskId := s.next_source_id, interval := delay, callback := TimerCallback.oneShot id,
           notification := n, notificationId := key }] ∧
      unordered_map_find s1.periodic_notification_map id = some (id, s.next_source_id) ∧
      (fire s1 s.next_source_id).sent = s.sent ++ [(key, n)] ∧
      (fire s1 s.next_source_id).sources = s.sources ∧
      unordered_map_find (fire s1 s.next_source_id).periodic_notification_map id = none := by
  let src : TimeoutSource :=
    { taskId := s.next_source_id,
      interval := to_guint (g_date_time_to_unix target - g_date_time_to_unix now),
      callback := TimerCallback.oneShot id, notification := n, notificationId := key }
  have hs1 : doZonedSchedule s id n key now target none
      = some { s with
          sources := s.sources ++ [src]
          next_source_id := s.next_source_id + 1
          periodic_notification_map :=
            unordered_map_emplace s.periodic_notification_map id s.next_source_id } := by
    simp only [doZonedSchedule, g_timeout_add_seconds_full, gt_iff_lt, hpos, if_true, src]
  have hfind : (s.sources ++ [src]).find? (fun t => t.taskId == s.next_source_id) = some src :=
    find_source_append_fresh _ _ _ hfresh rfl
  have hfilter : (s.sources ++ [src]).filter (fun t => t.taskId != s.next_source_id)
      = s.sources := by
    rw [List.filter_append, filter_sources_fresh _ _ hfresh]
    simp [src]
  have hfire : fire { s with
          sources := s.sources ++ [src]
          next_source_id := s.next_source_id + 1
          periodic_notification_map :=
            unordered_map_emplace s.periodic_notification_map id s.next_source_id }
        s.next_source_id
      = { s with
          sources := s.sources
          next_source_id := s.next_source_id + 1
          periodic_notification_map :=
            unordered_map_erase
              (unordered_map_emplace s.periodic_notification_map id s.next_source_id) id
          sent := s.sent ++ [(key, n)]
          visible := s.visible.filter (fun e => e.1 != key) ++ [(key, n)] } := by
    simp only [fire, hfind, TimeoutSource.run, g_application_send_notification, g_source_remove,
      src]
    simp only [Bool.false_eq_true, if_false]
    rw [hfilter]
  refine ⟨_, _, hs1, to_guint_of_lt _ hpos.le hfit, rfl,
    (unordered_map_find_emplace_absent _ _ _ habsent).2, ?_, ?_, ?_⟩
  · rw [hfire]
  · rw [hfire]
  · rw [hfire]
    exact unordered_map_find_erase _ _

/-! ## Theorems: the claims on the plugin -/

/-- C4, counterexample.  After `show` was called twice with id 1 the
shown-notifications list is `[1, 1]`, and `cancelAll` returns `[1, 1]`: the id
appears twice. -/
theorem cancelAll_returns_duplicates :
    (run flutter_local_notifications_plugin_init
        [Event.call "show" (showArgs 1) none (utc 0),
         Event.call "show" (showArgs 1) none (utc 0)]).map
      (fun s => (s.notifications, (cancelAll s).2.returnedIds)) = some ([1, 1], [1, 1]) ∧
    ¬ ([1, 1] : List Int).Nodup := by
  decide

/-- C4, amended.  For every plugin state, `cancelAll()` returns the
shown-notifications list followed by the ids of the registry entries, so the
returned list contains exactly the ids of the shown-notifications list together
with the ids of the registry entries (an id is in it if and only if it is in one
of the two); an id that occurs several times in the shown-notifications list, or
in both collections, is returned as often.  After the call both the
shown-notifications list and the registry are empty. -/
theorem cancelAll_returns_shown_then_registry (s : PluginState) :
    (cancelAll s).2 = FlMethodResponse.success
        (some (FlValue.int64List (s.notifications ++ s.periodic_notification_map.map Prod.fst))) ∧
    (∀ id : Int, id ∈ (cancelAll s).2.returnedIds ↔
        id ∈ s.notifications ∨ ∃ taskId, (id, taskId) ∈ s.periodic_notification_map) ∧
    (cancelAll s).1.notifications = [] ∧
    (cancelAll s).1.periodic_notification_map = [] := by
  have hf := withdraw_foldl_fields s.notifications s
  have hresp : (cancelAll s).2 = FlMethodResponse.success
        (some (FlValue.int64List (s.notifications ++ s.periodic_notification_map.map Prod.fst))) := by
    simp only [cancelAll]
    rw [cancelAll_foldl_ids, hf.1, hf.2]
  refine ⟨hresp, ?_, ?_, ?_⟩
  · intro id
    rw [hresp]
    simp [FlMethodResponse.returnedIds]
  · simp only [cancelAll]
    rw [cancelAll_foldl_notifications]
  · simp only [cancelAll]

/-- C5.  For every `periodicallyShow` call whose arguments are a map with valid
common arguments and whose `repeatInterval` is an integer outside `0..3`
(negative, or `4` and above), the call returns the error response with the
message "repeatInterval is not in valid range" and the state is the one before
the call: no timer is armed, and the registry and the shown-notifications list
are unchanged. -/
theorem periodicallyShow_repeatInterval_out_of_range (s : PluginState) (args : Option FlValue)
    (c : CommonArguments) (i : Int)
    (hmap : fl_value_get_type args = FlValueType.MAP)
    (hcommon : getCommonArguments args = Sum.inr c)
    (hri : fl_value_lookup_string args "repeatInterval" = some (FlValue.int i))
    (hrange : i < 0 ∨ 3 < i) :
    periodicallyShow s args
      = some (s, FlMethodResponse.error "show_error" "repeatInterval is not in valid range"
          none) := by
  have h1 := requireArgument_of_type "periodicallyShow" "args" args FlValueType.MAP
    (isSome_of_type_MAP args hmap) hmap
  have h2 : RequireArgument "periodicallyShow" "repeatInterval" (some (FlValue.int i))
      FlValueType.INT = none := by
    simp [RequireArgument, fl_value_get_type]
  have hlen : (RepeatIntervalMap.length : Int) = 4 := rfl
  have hcond : i < 0 ∨ i ≥ 4 := by omega
  simp only [periodicallyShow, h1, hcommon, hri, h2, fl_value_get_int, hlen, hcond, if_true]

/-- C5, witness: `periodicallyShow` with `repeatInterval = 4` on a state with an
armed timer. -/
theorem periodicallyShow_repeatInterval_out_of_range_witness :
    fl_value_get_type (periodicArgs 1 4) = FlValueType.MAP ∧
    fl_value_lookup_string (periodicArgs 1 4) "repeatInterval" = some (FlValue.int 4) ∧
    ((4 : Int) < 0 ∨ (3 : Int) < 4) ∧
    periodicallyShow busyState (periodicArgs 1 4)
      = some (busyState,
          FlMethodResponse.error "show_error" "repeatInterval is not in valid range" none) :=
  ⟨rfl, rfl, by decide,
    periodicallyShow_repeatInterval_out_of_range busyState (periodicArgs 1 4)
      { id := 1, title := some "", body := none, payload := some "p", platformSpecifics := none }
      4 rfl rfl rfl (by decide)⟩

/-- C6.  For every `periodicallyShow` call with valid arguments and
`repeatInterval` index `i` in `0..3`, the call succeeds and arms at once a timer
whose period in seconds is 60, 3600, 86400, 604800 for `i` = 0, 1, 2, 3 (hourly
is 60 times every-minute, daily 24 times hourly, weekly 7 times daily).  Every
fire of it sends the stored notification under the key of `id` and leaves the
armed timers, this one with its period among them, as they were: after `k`
fires the notification has been sent `k` times. -/
theorem periodicallyShow_arms_repeating_timer (s : PluginState) (args : Option FlValue)
    (c : CommonArguments) (i : Int) (n : GNotification)
    (hmap : fl_value_get_type args = FlValueType.MAP)
    (hcommon : getCommonArguments args = Sum.inr c)
    (hbuild : buildNotification s.default_icon c.id c.title c.body c.payload c.platformSpecifics
      = some n)
    (hri : fl_value_lookup_string args "repeatInterval" = some (FlValue.int i))
    (hlo : 0 ≤ i) (hhi : i ≤ 3) (hfresh : SourceIdsFresh s) :
    ∃ s', periodicallyShow s args = some (s', FlMethodResponse.success none) ∧
      s'.sources = s.sources ++
        [{ taskId := s.next_source_id,
           interval := if i = 0 then 60 else if i = 1 then 3600 else if i = 2 then 86400 else 604800,
           callback := TimerCallback.periodic,
           notification := n,
           notificationId := notificationKey c.id }] ∧
      (∀ k : Nat,
        (fireTimes s.next_source_id k s').sources = s'.sources ∧
        (fireTimes s.next_source_id k s').sent
          = s'.sent ++ List.replicate k (notificationKey c.id, n)) ∧
      RepeatInterval.Hourly.value = 60 * RepeatInterval.EveryMinute.value ∧
      RepeatInterval.Daily.value = 24 * RepeatInterval.Hourly.value ∧
      RepeatInterval.Weekly.value = 7 * RepeatInterval.Daily.value := by
  have key : ∀ (r : RepeatInterval) (p : Nat), RepeatIntervalMap[i.toNat]? = some r →
      to_guint r.value = p →
      (if i = 0 then 60 else if i = 1 then 3600 else if i = 2 then 86400 else 604800) = p →
      periodicallyShow s args = some (doPeriodicallyShow s c.id n (notificationKey c.id) r,
        FlMethodResponse.success none) ∧
      (doPeriodicallyShow s c.id n (notificationKey c.id) r).sources = s.sources ++
        [{ taskId := s.next_source_id,
           interval := if i = 0 then 60 else if i = 1 then 3600 else if i = 2 then 86400 else 604800,
           callback := TimerCallback.periodic,
           notification := n,
           notificationId := notificationKey c.id }] ∧
      (∀ k : Nat,
        (fireTimes s.next_source_id k
            (doPeriodicallyShow s c.id n (notificationKey c.id) r)).sources
          = (doPeriodicallyShow s c.id n (notificationKey c.id) r).sources ∧
        (fireTimes s.next_source_id k (doPeriodicallyShow s c.id n (notificationKey c.id) r)).sent
          = (doPeriodicallyShow s c.id n (notificationKey c.id) r).sent
            ++ List.replicate k (notificationKey c.id, n)) := by
    intro r p hr hp hi
    refine ⟨periodicallyShow_valid s args c i n r hmap hcommon hbuild hri hlo hhi hr, ?_, ?_⟩
    · simp only [doPeriodicallyShow, g_timeout_add_seconds_full, hp, hi]
    · intro k
      have hfind : (doPeriodicallyShow s c.id n (notificationKey c.id) r).sources.find?
          (fun t => t.taskId == s.next_source_id)
          = some { taskId := s.next_source_id, interval := p, callback := TimerCallback.periodic,
                   notification := n, notificationId := notificationKey c.id } := by
        simp only [doPeriodicallyShow, g_timeout_add_seconds_full, hp]
        exact find_source_append_fresh _ _ _ hfresh rfl
      have := fireTimes_periodic s.next_source_id _ rfl k _ hfind
      exact ⟨this.1, this.2.2⟩
  have hcases : i = 0 ∨ i = 1 ∨ i = 2 ∨ i = 3 := by omega
  rcases hcases with h | h | h | h <;> subst h
  · obtain ⟨ha, hb, hc⟩ := key RepeatInterval.EveryMinute 60 rfl (by decide) rfl
    exact ⟨_, ha, hb, hc, by decide, by decide, by decide⟩
  · obtain ⟨ha, hb, hc⟩ := key RepeatInterval.Hourly 3600 rfl (by decide) rfl
    exact ⟨_, ha, hb, hc, by decide, by decide, by decide⟩
  · obtain ⟨ha, hb, hc⟩ := key RepeatInterval.Daily 86400 rfl (by decide) rfl
    exact ⟨_, ha, hb, hc, by decide, by decide, by decide⟩
  · obtain ⟨ha, hb, hc⟩ := key RepeatInterval.Weekly 604800 rfl (by decide) rfl
    exact ⟨_, ha, hb, hc, by decide, by decide, by decide⟩

/-- C6, witness: `periodicallyShow` with id 1 and index 1 (hourly) on a state
that already has a timer armed; three fires send the notification three
times. -/
theorem periodicallyShow_arms_repeating_timer_witness :
    SourceIdsFresh busyState ∧
    ∃ s', periodicallyShow busyState (periodicArgs 1 1) = some (s', FlMethodResponse.success none) ∧
      s'.sources = busyState.sources ++
        [{ taskId := 2, interval := 3600, callback := TimerCallback.periodic,
           notification := plainNotification 1,
           notificationId := "flutter_local_notifications#1" }] ∧
      (fireTimes 2 3 s').sources = s'.sources ∧
      (fireTimes 2 3 s').sent
        = s'.sent ++ List.replicate 3 ("flutter_local_notifications#1", plainNotification 1) := by
  refine ⟨by decide, ?_⟩
  obtain ⟨s', h1, h2, h3, _⟩ :=
    periodicallyShow_arms_repeating_timer busyState (periodicArgs 1 1)
      { id := 1, title := some "", body := none, payload := some "p", platformSpecifics := none }
      1 (plainNotification 1) rfl rfl rfl rfl (by decide) (by decide) (by decide)
  exact ⟨s', h1, h2, (h3 3).1, (h3 3).2⟩

/-- C7, the code at the failing input.  `periodicallyShow` is called twice with
id 1, then `cancel(1)`.  The second call arms timer 2, but `emplace` keeps the
registry entry `1 -> 1`; `cancel` removes timer 1 and the entry, and timer 2
stays armed.  Its next fire sends the notification of id 1 again. -/
theorem cancel_after_double_periodicallyShow_leaves_timer :
    run flutter_local_notifications_plugin_init
        [Event.call "periodicallyShow" (periodicArgs 1 0) none (utc 0),
         Event.call "periodicallyShow" (periodicArgs 1 0) none (utc 0),
         Event.call "cancel" (some (FlValue.int 1)) none (utc 0)]
      = some
        { default_icon := none, notifications := [], periodic_notification_map := [],
          sources := [{ taskId := 2, interval := 60, callback := TimerCallback.periodic,
                        notification := plainNotification 1,
                        notificationId := "flutter_local_notifications#1" }],
          next_source_id := 3, sent := [], visible := [] } ∧
    run flutter_local_notifications_plugin_init
        [Event.call "periodicallyShow" (periodicArgs 1 0) none (utc 0),
         Event.call "periodicallyShow" (periodicArgs 1 0) none (utc 0),
         Event.call "cancel" (some (FlValue.int 1)) none (utc 0),
         Event.fire 2]
      = some
        { default_icon := none, notifications := [], periodic_notification_map := [],
          sources := [{ taskId := 2, interval := 60, callback := TimerCallback.periodic,
                        notification := plainNotification 1,
                        notificationId := "flutter_local_notifications#1" }],
          next_source_id := 3,
          sent := [("flutter_local_notifications#1", plainNotification 1)],
          visible := [("flutter_local_notifications#1", plainNotification 1)] } := by
  decide

/-- C8.  For every `zonedSchedule` with a granularity `g` of period `P`:
`doZonedSchedule` arms a timer whose delay is
`GetNextNotifyTime(now, target, g) - now` seconds and sends nothing yet.  The
fire of that timer sends the notification once, removes the timer, arms a new
timer with period exactly `P` and makes the registry entry of `id` the new
timer's handle.  The new timer is a repeating one: each of its fires sends the
notification again and leaves it armed.  Its period is `P` whatever the first
delay was. -/
theorem doZonedSchedule_recurring_two_phases (s : PluginState) (id : Int) (n : GNotification)
    (key : String) (now target : GDateTime) (g : DateTimeComponents)
    (hfresh : SourceIdsFresh s) :
    ∃ (s1 : PluginState) (delay : Nat),
      doZonedSchedule s id n key now target (some g) = some s1 ∧
      (delay : Int)
        = g_date_time_to_unix (GetNextNotifyTime now target g) - g_date_time_to_unix now ∧
      s1.sources = s.sources ++
        [{ taskId := s.next_source_id, interval := delay,
           callback := TimerCallback.zonedFirst g.period.toNat id,
           notification := n, notificationId := key }] ∧
      s1.sent = s.sent ∧
      (g.period.toNat : Int) = g.period ∧
      (fire s1 s.next_source_id).sent = s.sent ++ [(key, n)] ∧
      (fire s1 s.next_source_id).sources = s.sources ++
        [{ taskId := s.next_source_id + 1, interval := g.period.toNat,
           callback := TimerCallback.periodic, notification := n, notificationId := key }] ∧
      unordered_map_find (fire s1 s.next_source_id).periodic_notification_map id
        = some (id, s.next_source_id + 1) ∧
      ∀ k : Nat,
        (fireTimes (s.next_source_id + 1) k (fire s1 s.next_source_id)).sources
          = (fire s1 s.next_source_id).sources ∧
        (fireTimes (s.next_source_id + 1) k (fire s1 s.next_source_id)).sent
          = s.sent ++ [(key, n)] ++ List.replicate k (key, n) := by
  have hP : 0 < g.period := by cases g <;> decide
  have hP2 : g.period ≤ 604800 := by cases g <;> decide
  have hu := GetNextNotifyTime_unix now target g
  have h0 := Int.emod_nonneg (target.unix - now.unix) hP.ne'
  have h1 := Int.emod_lt_of_pos (target.unix - now.unix) hP
  have hd0 : 0 ≤ g_date_time_to_unix (GetNextNotifyTime now target g) - g_date_time_to_unix now := by
    simp only [g_date_time_to_unix]; omega
  have hd1 : g_date_time_to_unix (GetNextNotifyTime now target g) - g_date_time_to_unix now
      < 2 ^ 32 := by
    simp only [g_date_time_to_unix]
    have : (604800 : Int) < 2 ^ 32 := by decide
    omega
  have hrep : to_guint (if g = DateTimeComponents.Time then RepeatInterval.Daily.value
      else RepeatInterval.Weekly.value) = g.period.toNat := by
    cases g <;> decide
  let src1 : TimeoutSource :=
    { taskId := s.next_source_id,
      interval := to_guint
        (g_date_time_to_unix (GetNextNotifyTime now target g) - g_date_time_to_unix now),
      callback := TimerCallback.zonedFirst g.period.toNat id,
      notification := n, notificationId := key }
  let src2 : TimeoutSource :=
    { taskId := s.next_source_id + 1, interval := g.period.toNat,
      callback := TimerCallback.periodic, notification := n, notificationId := key }
  have hs1 : doZonedSchedule s id n key now target (some g)
      = some { s with
          sources := s.sources ++ [src1]
          next_source_id := s.next_source_id + 1
          periodic_notification_map :=
            unordered_map_emplace s.periodic_notification_map id s.next_source_id } := by
    simp only [doZonedSchedule, g_timeout_add_seconds_full, hrep, src1]
  have hfind1 : (s.sources ++ [src1]).find? (fun t => t.taskId == s.next_source_id) = some src1 :=
    find_source_append_fresh _ _ _ hfresh rfl
  have hfilter : (s.sources ++ [src1] ++ [src2]).filter (fun t => t.taskId != s.next_source_id)
      = s.sources ++ [src2] := by
    rw [List.filter_append, List.filter_append, filter_sources_fresh _ _ hfresh]
    simp [src1, src2]
  have hfire : fire { s with
          sources := s.sources ++ [src1]
          next_source_id := s.next_source_id + 1
          periodic_notification_map :=
            unordered_map_emplace s.periodic_notification_map id s.next_source_id }
        s.next_source_id
      = { s with
          sources := s.sources ++ [src2]
          next_source_id := s.next_source_id + 1 + 1
          periodic_notification_map :=
            unordered_map_insert_or_assign
              (unordered_map_emplace s.periodic_notification_map id s.next_source_id) id
              (s.next_source_id + 1)
          sent := s.sent ++ [(key, n)]
          visible := s.visible.filter (fun e => e.1 != key) ++ [(key, n)] } := by
    simp only [fire, hfind1, TimeoutSource.run, g_application_send_notification,
      g_timeout_add_seconds_full, g_source_remove, src1]
    simp only [Bool.false_eq_true, if_false]
    rw [hfilter]
  refine ⟨_, _, hs1, to_guint_of_lt _ hd0 hd1, rfl, rfl, Int.toNat_of_nonneg hP.le, ?_, ?_, ?_, ?_⟩
  · rw [hfire]
  · rw [hfire]
  · rw [hfire]
    exact unordered_map_find_insert_or_assign _ _ _
  · intro k
    rw [hfire]
    have hfresh2 : ∀ t ∈ s.sources, t.taskId < s.next_source_id + 1 := fun t ht =>
      Nat.lt_succ_of_lt (hfresh t ht)
    have hfind2 : (s.sources ++ [src2]).find? (fun t => t.taskId == s.next_source_id + 1)
        = some src2 := find_source_append_fresh _ _ _ hfresh2 rfl
    have hgen : ∀ s2 : PluginState, s2.sources = s.sources ++ [src2] →
        s2.sent = s.sent ++ [(key, n)] →
        (fireTimes (s.next_source_id + 1) k s2).sources = s2.sources ∧
        (fireTimes (s.next_source_id + 1) k s2).sent
          = s.sent ++ [(key, n)] ++ List.replicate k (key, n) := by
      intro s2 hsrc hsent
      have := fireTimes_periodic (s.next_source_id + 1) src2 rfl k s2 (by rw [hsrc]; exact hfind2)
      rw [hsent] at this
      exact ⟨this.1, this.2.2⟩
    exact hgen _ rfl rfl

/-- C8, witness: on a state with a timer armed, `now = 1000`, `target = 500`,
granularity `Time`: the first delay is 85900 seconds, the period after the
first fire 86400. -/
theorem doZonedSchedule_recurring_two_phases_witness :
    SourceIdsFresh busyState ∧
    ∃ s1, doZonedSchedule busyState 3 (plainNotification 3) (notificationKey 3) (utc 1000) (utc 500)
        (some DateTimeComponents.Time) = some s1 ∧
      s1.sources = busyState.sources ++
        [{ taskId := 2, interval := 85900, callback := TimerCallback.zonedFirst 86400 3,
           notification := plainNotification 3, notificationId := notificationKey 3 }] ∧
      (fire s1 2).sent = busyState.sent ++ [(notificationKey 3, plainNotification 3)] ∧
      (fire s1 2).sources = busyState.sources ++
        [{ taskId := 3, interval := 86400, callback := TimerCallback.periodic,
           notification := plainNotification 3, notificationId := notificationKey 3 }] ∧
      unordered_map_find (fire s1 2).periodic_notification_map 3 = some (3, 3) := by
  refine ⟨by decide, ?_⟩
  obtain ⟨s1, delay, h1, h2, h3, _, _, h6, h7, h8, _⟩ :=
    doZonedSchedule_recurring_two_phases busyState 3 (plainNotification 3) (notificationKey 3)
      (utc 1000) (utc 500) DateTimeComponents.Time (by decide)
  have hdelay : delay = 85900 := by
    have e : g_date_time_to_unix (GetNextNotifyTime (utc 1000) (utc 500) DateTimeComponents.Time)
        - g_date_time_to_unix (utc 1000) = 85900 := by decide
    rw [e] at h2
    exact_mod_cast h2
  subst hdelay
  exact ⟨s1, h1, h3, h6, h7, h8⟩

/-- C9, the code at two failing inputs.
First: id 7 already has a registry entry (from `periodicallyShow`) when the
one-shot `zonedSchedule` for id 7 arrives, ten seconds ahead.  Timer 2 is armed
but `emplace` keeps the entry `7 -> 1`, so the new timer is not recorded under
the id; when timer 2 fires it erases that entry, and the periodic timer 1 stays
armed where `cancel(7)` no longer reaches it.
Second: `target - now` is `4294967301` seconds, and the timer is armed with a
delay of `5` seconds, since the delay is passed as a `guint`. -/
theorem zonedSchedule_oneShot_failing_inputs :
    (run flutter_local_notifications_plugin_init
        [Event.call "periodicallyShow" (periodicArgs 7 1) none (utc 1700000000),
         Event.call "zonedSchedule" (zonedArgs 7 "2023-11-14T22:13:30Z") (some (utc 1700000010))
           (utc 1700000000)]
      = some
        { default_icon := none, notifications := [], periodic_notification_map := [(7, 1)],
          sources := [{ taskId := 1, interval := 3600, callback := TimerCallback.periodic,
                        notification := plainNotification 7,
                        notificationId := "flutter_local_notifications#7" },
                      { taskId := 2, interval := 10, callback := TimerCallback.oneShot 7,
                        notification := plainNotification 7,
                        notificationId := "flutter_local_notifications#7" }],
          next_source_id := 3, sent := [], visible := [] } ∧
    run flutter_local_notifications_plugin_init
        [Event.call "periodicallyShow" (periodicArgs 7 1) none (utc 1700000000),
         Event.call "zonedSchedule" (zonedArgs 7 "2023-11-14T22:13:30Z") (some (utc 1700000010))
           (utc 1700000000),
         Event.fire 2,
         Event.call "cancel" (some (FlValue.int 7)) none (utc 1700000020)]
      = some
        { default_icon := none, notifications := [], periodic_notification_map := [],
          sources := [{ taskId := 1, interval := 3600, callback := TimerCallback.periodic,
                        notification := plainNotification 7,
                        notificationId := "flutter_local_notifications#7" }],
          next_source_id := 3,
          sent := [("flutter_local_notifications#7", plainNotification 7)],
          visible := [] }) ∧
    (g_date_time_to_unix (utc 5994967301) - g_date_time_to_unix (utc 1700000000) = 4294967301 ∧
    run flutter_local_notifications_plugin_init
        [Event.call "zonedSchedule" (zonedArgs 7 "2159-12-22T04:41:41Z") (some (utc 5994967301))
           (utc 1700000000)]
      = some
        { default_icon := none, notifications := [], periodic_notification_map := [(7, 1)],
          sources := [{ taskId := 1, interval := 5, callback := TimerCallback.oneShot 7,
                        notification := plainNotification 7,
                        notificationId := "flutter_local_notifications#7" }],
          next_source_id := 2, sent := [], visible := [] }) := by
  decide

/-- C10.  For every plugin state and every id that has no registry entry,
`cancel(id)` returns success and leaves the registry, the armed timers and the
shown-notifications list unchanged.  And for every state and id, `cancel(id)`
followed by `cancel(id)` yields the same state and the same success result as a
single `cancel(id)`. -/
theorem cancel_absent_noop_and_idempotent (s : PluginState) (id : Int) :
    (unordered_map_find s.periodic_notification_map id = none →
      (cancel s (some (FlValue.int id))).2 = FlMethodResponse.success none ∧
      (cancel s (some (FlValue.int id))).1.periodic_notification_map = s.periodic_notification_map ∧
      (cancel s (some (FlValue.int id))).1.sources = s.sources ∧
      (cancel s (some (FlValue.int id))).1.notifications = s.notifications) ∧
    (cancel s (some (FlValue.int id))).2 = FlMethodResponse.success none ∧
    cancel (cancel s (some (FlValue.int id))).1 (some (FlValue.int id))
      = cancel s (some (FlValue.int id)) := by
  refine ⟨?_, ?_, ?_⟩
  · intro h
    rw [cancel_int, h]
    exact ⟨rfl, rfl, rfl, rfl⟩
  · rw [cancel_int]
  · rw [cancel_int s id]
    cases h : unordered_map_find s.periodic_notification_map id with
    | none =>
      simp only
      rw [cancel_int]
      simp only [g_application_withdraw_notification, h, List.filter_filter, Bool.and_self]
    | some iter =>
      simp only
      rw [cancel_int]
      simp only [g_application_withdraw_notification, g_source_remove, unordered_map_find_erase,
        List.filter_filter, Bool.and_self]

/-- C10, witness: id 5 is shown but has no registry entry; `cancel(5)` leaves
the registry, the armed timer and the shown-notifications list as they are. -/
theorem cancel_absent_noop_and_idempotent_witness :
    unordered_map_find busyState.periodic_notification_map 5 = none ∧
    (cancel busyState (some (FlValue.int 5))).2 = FlMethodResponse.success none ∧
    (cancel busyState (some (FlValue.int 5))).1.periodic_notification_map = [(2, 1)] ∧
    (cancel busyState (some (FlValue.int 5))).1.sources = busyState.sources ∧
    (cancel busyState (some (FlValue.int 5))).1.notifications = [5] ∧
    cancel (cancel busyState (some (FlValue.int 5))).1 (some (FlValue.int 5))
      = cancel busyState (some (FlValue.int 5)) :=
  ⟨by decide,
    ((cancel_absent_noop_and_idempotent busyState 5).1 (by decide)).1,
    ((cancel_absent_noop_and_idempotent busyState 5).1 (by decide)).2.1,
    ((cancel_absent_noop_and_idempotent busyState 5).1 (by decide)).2.2.1,
    ((cancel_absent_noop_and_idempotent busyState 5).1 (by decide)).2.2.2,
    (cancel_absent_noop_and_idempotent busyState 5).2.2⟩

/-! ## Theorems: the registry invariant -/

theorem buildNotification_id (di : Option GIcon) (id : Int) (title body payload : Option String)
    (ps : Option FlValue) (n : GNotification)
    (h : buildNotification di id title body payload ps = some n) : n.id = id := by
  unfold buildNotification at h
  split at h
  · dsimp only at h
    split at h
    · split at h
      · cases h; rfl
      · cases h
    · cases h; rfl
  · cases h; rfl

theorem unordered_map_find_eq_none_iff (m : List (Int × Nat)) (key : Int) :
    unordered_map_find m key = none ↔ key ∉ m.map Prod.fst := by
  simp only [unordered_map_find, List.find?_eq_none, List.mem_map, beq_iff_eq]
  constructor
  · rintro h ⟨e, he, rfl⟩
    exact h e he rfl
  · intro h e he hk
    exact h ⟨e, he, hk⟩

theorem mem_unordered_map_emplace (m : List (Int × Nat)) (key : Int) (value : Nat)
    (e : Int × Nat) (h : e ∈ unordered_map_emplace m key value) : e ∈ m ∨ e = (key, value) := by
  unfold unordered_map_emplace at h
  split at h
  · exact Or.inl h
  · simpa using h

theorem nodup_keys_unordered_map_emplace (m : List (Int × Nat)) (key : Int) (value : Nat)
    (h : (m.map Prod.fst).Nodup) : ((unordered_map_emplace m key value).map Prod.fst).Nodup := by
  unfold unordered_map_emplace
  split
  · exact h
  · rename_i hnone
    have hk : key ∉ m.map Prod.fst := by
      rw [← unordered_map_find_eq_none_iff]
      simpa using hnone
    rw [List.map_append, List.map_singleton]
    exact List.Nodup.append h (List.nodup_singleton _) (by
      intro x hx hx'
      rw [List.mem_singleton] at hx'
      have hx2 : x = key := hx'
      exact hk (hx2 ▸ hx))

theorem mem_unordered_map_insert_or_assign (m : List (Int × Nat)) (key : Int) (value : Nat)
    (e : Int × Nat) (h : e ∈ unordered_map_insert_or_assign m key value) :
    (e ∈ m ∧ e.1 ≠ key) ∨ e = (key, value) := by
  unfold unordered_map_insert_or_assign at h
  split at h
  · rw [List.mem_map] at h
    obtain ⟨x, hx, rfl⟩ := h
    by_cases hk : x.1 = key
    · right; simp [hk]
    · left
      have hb : (x.1 == key) = false := by simpa using hk
      simp only [hb, Bool.false_eq_true, if_false]
      exact ⟨hx, hk⟩
  · rename_i hnone
    rw [List.mem_append, List.mem_singleton] at h
    rcases h with h | h
    · left
      refine ⟨h, ?_⟩
      intro hk
      have hn : unordered_map_find m key = none := by simpa using hnone
      rw [unordered_map_find_eq_none_iff] at hn
      exact hn (List.mem_map.mpr ⟨e, h, hk⟩)
    · exact Or.inr h

theorem nodup_keys_unordered_map_insert_or_assign (m : List (Int × Nat)) (key : Int)
    (value : Nat) (h : (m.map Prod.fst).Nodup) :
    ((unordered_map_insert_or_assign m key value).map Prod.fst).Nodup := by
  unfold unordered_map_insert_or_assign
  split
  · have e : (m.map (fun e => if e.1 == key then (key, value) else e)).map Prod.fst
        = m.map Prod.fst := by
      rw [List.map_map]
      apply List.map_congr_left
      intro x _
      by_cases hk : x.1 = key
      · simp [hk]
      · simp [hk]
    rw [e]
    exact h
  · rename_i hnone
    have hk : key ∉ m.map Prod.fst := by
      rw [← unordered_map_find_eq_none_iff]
      simpa using hnone
    rw [List.map_append, List.map_singleton]
    exact List.Nodup.append h (List.nodup_singleton _) (by
      intro x hx hx'
      rw [List.mem_singleton] at hx'
      have hx2 : x = key := hx'
      exact hk (hx2 ▸ hx))

theorem mem_unordered_map_erase (m : List (Int × Nat)) (key : Int) (e : Int × Nat)
    (h : e ∈ unordered_map_erase m key) : e ∈ m ∧ e.1 ≠ key := by
  unfold unordered_map_erase at h
  rw [List.mem_filter] at h
  exact ⟨h.1, by simpa using h.2⟩

theorem nodup_keys_unordered_map_erase (m : List (Int × Nat)) (key : Int)
    (h : (m.map Prod.fst).Nodup) : ((unordered_map_erase m key).map Prod.fst).Nodup :=
  List.Nodup.sublist (List.Sublist.map _ (List.filter_sublist _)) h

theorem unordered_map_find_mem (m : List (Int × Nat)) (key : Int) (e : Int × Nat)
    (h : unordered_map_find m key = some e) : e ∈ m ∧ e.1 = key := by
  unfold unordered_map_find at h
  exact ⟨List.mem_of_find?_eq_some h, by simpa using List.find?_some h⟩

theorem find_source_mem (l : List TimeoutSource) (tid : Nat) (src : TimeoutSource)
    (h : l.find? (fun t => t.taskId == tid) = some src) : src ∈ l ∧ src.taskId = tid :=
  ⟨List.mem_of_find?_eq_some h, by simpa using List.find?_some h⟩

theorem find_source_of_mem (l : List TimeoutSource) (t : TimeoutSource)
    (hnd : (l.map TimeoutSource.taskId).Nodup) (ht : t ∈ l) :
    l.find? (fun x => x.taskId == t.taskId) = some t := by
  cases hf : l.find? (fun x => x.taskId == t.taskId) with
  | none =>
    rw [List.find?_eq_none] at hf
    exact absurd (by simp) (hf t ht)
  | some x =>
    obtain ⟨hx, hxt⟩ := find_source_mem l t.taskId x hf
    rw [List.inj_on_of_nodup_map hnd hx ht hxt]

theorem sourcesOk_congr (s s' : PluginState) (h1 : s'.sources = s.sources)
    (h2 : s'.next_source_id = s.next_source_id) (h : SourcesOk s) : SourcesOk s' := by
  obtain ⟨hf, hn, hc⟩ := h
  refine ⟨fresh_congr s s' h1 h2 hf, ?_, ?_⟩
  · rw [h1]; exact hn
  · rw [h1]; exact hc

theorem registryOk_congr (s s' : PluginState) (h1 : s'.sources = s.sources)
    (h3 : s'.periodic_notification_map = s.periodic_notification_map) (h : RegistryOk s) :
    RegistryOk s' := by
  unfold RegistryOk
  rw [h1, h3]
  exact h

theorem invariant_congr (s s' : PluginState) (h1 : s'.sources = s.sources)
    (h2 : s'.next_source_id = s.next_source_id)
    (h3 : s'.periodic_notification_map = s.periodic_notification_map)
    (h : RegistryInvariant s) : RegistryInvariant s' :=
  ⟨sourcesOk_congr s s' h1 h2 h.1, registryOk_congr s s' h1 h3 h.2⟩

theorem sourcesOk_of_filter (s s' : PluginState) (tag : Nat)
    (hsources : s'.sources = s.sources.filter (fun t => t.taskId != tag))
    (hnext : s'.next_source_id = s.next_source_id) (h : SourcesOk s) : SourcesOk s' := by
  obtain ⟨hf, hn, hc⟩ := h
  refine ⟨?_, ?_, ?_⟩
  · intro t ht
    rw [hsources] at ht
    rw [hnext]
    exact hf t (List.mem_filter.mp ht).1
  · rw [hsources]
    exact List.Nodup.sublist (List.Sublist.map _ (List.filter_sublist _)) hn
  · intro t ht
    rw [hsources] at ht
    exact hc t (List.mem_filter.mp ht).1

theorem sourcesOk_of_add (s s' : PluginState) (new : TimeoutSource)
    (hnew : new.taskId = s.next_source_id) (hcoh : new.Coherent)
    (hsources : s'.sources = s.sources ++ [new])
    (hnext : s'.next_source_id = s.next_source_id + 1) (h : SourcesOk s) : SourcesOk s' := by
  obtain ⟨hf, hn, hc⟩ := h
  refine ⟨?_, ?_, ?_⟩
  · intro t ht
    rw [hsources, List.mem_append, List.mem_singleton] at ht
    rw [hnext]
    rcases ht with ht | ht
    · exact Nat.lt_succ_of_lt (hf t ht)
    · rw [ht, hnew]; exact Nat.lt_succ_self _
  · rw [hsources, List.map_append, List.map_singleton]
    refine List.Nodup.append hn (List.nodup_singleton _) ?_
    intro x hx hx'
    rw [List.mem_singleton] at hx'
    obtain ⟨t, ht, rfl⟩ := List.mem_map.mp hx
    have := hf t ht
    omega
  · intro t ht
    rw [hsources, List.mem_append, List.mem_singleton] at ht
    rcases ht with ht | ht
    · exact hc t ht
    · rw [ht]; exact hcoh

theorem registryOk_of_add_emplace (s s' : PluginState) (new : TimeoutSource) (id : Int)
    (hnew : new.taskId = s.next_source_id) (hid : new.notification.id = id)
    (hsources : s'.sources = s.sources ++ [new])
    (hmap : s'.periodic_notification_map
      = unordered_map_emplace s.periodic_notification_map id s.next_source_id)
    (h : RegistryOk s) : RegistryOk s' := by
  obtain ⟨hk, he⟩ := h
  refine ⟨?_, ?_⟩
  · rw [hmap]; exact nodup_keys_unordered_map_emplace _ _ _ hk
  · intro e hmem
    rw [hmap] at hmem
    rw [hsources]
    rcases mem_unordered_map_emplace _ _ _ _ hmem with h1 | h1
    · obtain ⟨t, ht, h2, h3⟩ := he e h1
      exact ⟨t, List.mem_append_left _ ht, h2, h3⟩
    · subst h1
      exact ⟨new, List.mem_append_right _ (List.mem_singleton_self _), hnew, hid⟩

theorem registryOk_of_remove_erase (s s' : PluginState) (src : TimeoutSource) (id : Int)
    (hsrc : src ∈ s.sources) (hsid : src.notification.id = id)
    (hsources : s'.sources = s.sources.filter (fun t => t.taskId != src.taskId))
    (hmap : s'.periodic_notification_map = unordered_map_erase s.periodic_notification_map id)
    (hs : SourcesOk s) (h : RegistryOk s) : RegistryOk s' := by
  obtain ⟨hk, he⟩ := h
  refine ⟨?_, ?_⟩
  · rw [hmap]; exact nodup_keys_unordered_map_erase _ _ hk
  · intro e hmem
    rw [hmap] at hmem
    obtain ⟨h1, h2⟩ := mem_unordered_map_erase _ _ _ hmem
    obtain ⟨t, ht, h3, h4⟩ := he e h1
    refine ⟨t, ?_, h3, h4⟩
    rw [hsources, List.mem_filter]
    refine ⟨ht, ?_⟩
    simp only [bne_iff_ne, ne_eq]
    intro heq
    have : t = src := List.inj_on_of_nodup_map hs.2.1 ht hsrc heq
    subst this
    exact h2 (h4.symm.trans hsid)

theorem registryOk_of_rearm (s s' : PluginState) (src new : TimeoutSource) (id : Int)
    (hsrc : src ∈ s.sources) (hsid : id = src.notification.id)
    (hnew : new.taskId = s.next_source_id) (hnn : new.notification = src.notification)
    (hsources : s'.sources = (s.sources ++ [new]).filter (fun t => t.taskId != src.taskId))
    (hmap : s'.periodic_notification_map
      = unordered_map_insert_or_assign s.periodic_notification_map id s.next_source_id)
    (hs : SourcesOk s) (h : RegistryOk s) : RegistryOk s' := by
  obtain ⟨hk, he⟩ := h
  have hlt : src.taskId < s.next_source_id := hs.1 src hsrc
  refine ⟨?_, ?_⟩
  · rw [hmap]; exact nodup_keys_unordered_map_insert_or_assign _ _ _ hk
  · intro e hmem
    rw [hmap] at hmem
    rw [hsources]
    rcases mem_unordered_map_insert_or_assign _ _ _ _ hmem with ⟨h1, h2⟩ | h1
    · obtain ⟨t, ht, h3, h4⟩ := he e h1
      refine ⟨t, ?_, h3, h4⟩
      rw [List.mem_filter]
      refine ⟨List.mem_append_left _ ht, ?_⟩
      simp only [bne_iff_ne, ne_eq]
      intro heq
      have : t = src := List.inj_on_of_nodup_map hs.2.1 ht hsrc heq
      subst this
      exact h2 (h4.symm.trans hsid.symm)
    · subst h1
      refine ⟨new, ?_, hnew, by rw [hnn]; exact hsid.symm⟩
      rw [List.mem_filter]
      refine ⟨List.mem_append_right _ (List.mem_singleton_self _), ?_⟩
      simp only [bne_iff_ne, ne_eq]
      omega

theorem invariant_doPeriodicallyShow (s : PluginState) (id : Int) (n : GNotification)
    (r : RepeatInterval) (hn : n.id = id) (h : RegistryInvariant s) :
    RegistryInvariant (doPeriodicallyShow s id n (notificationKey id) r) := by
  refine ⟨sourcesOk_of_add s _
      { taskId := s.next_source_id, interval := to_guint r.value,
        callback := TimerCallback.periodic, notification := n,
        notificationId := notificationKey id }
      rfl ⟨by rw [hn], trivial⟩ rfl rfl h.1,
    registryOk_of_add_emplace s _
      { taskId := s.next_source_id, interval := to_guint r.value,
        callback := TimerCallback.periodic, notification := n,
        notificationId := notificationKey id }
      id rfl hn rfl rfl h.2⟩

theorem invariant_doZonedSchedule (s s' : PluginState) (id : Int) (n : GNotification)
    (now target : GDateTime) (g : Option DateTimeComponents) (hn : n.id = id)
    (hz : doZonedSchedule s id n (notificationKey id) now target g = some s')
    (h : RegistryInvariant s) : RegistryInvariant s' := by
  unfold doZonedSchedule at hz
  split at hz
  · cases hz
    exact ⟨sourcesOk_of_add s _ _ rfl ⟨by dsimp only; rw [hn], hn.symm⟩ rfl rfl h.1,
      registryOk_of_add_emplace s _ _ id rfl hn rfl rfl h.2⟩
  · dsimp only at hz
    split at hz
    · cases hz
      exact ⟨sourcesOk_of_add s _ _ rfl ⟨by dsimp only; rw [hn], hn.symm⟩ rfl rfl h.1,
        registryOk_of_add_emplace s _ _ id rfl hn rfl rfl h.2⟩
    · cases hz

theorem invariant_fire (s : PluginState) (tid : Nat) (h : RegistryInvariant s) :
    RegistryInvariant (fire s tid) := by
  unfold fire
  split
  · exact h
  · rename_i src hfind
    obtain ⟨hmem, htid⟩ := find_source_mem _ _ _ hfind
    have hcoh := h.1.2.2 src hmem
    subst htid
    cases hcb : src.callback with
    | periodic =>
      simp only [TimeoutSource.run, hcb, if_true]
      exact invariant_congr s _ rfl rfl rfl h
    | zonedFirst repeatInterval id =>
      have hid : id = src.notification.id := by
        have := hcoh.2
        rw [hcb] at this
        exact this
      simp only [TimeoutSource.run, hcb, g_application_send_notification,
        g_timeout_add_seconds_full, g_source_remove, Bool.false_eq_true, if_false]
      let newsrc : TimeoutSource :=
        { taskId := s.next_source_id, interval := repeatInterval,
          callback := TimerCallback.periodic, notification := src.notification,
          notificationId := src.notificationId }
      let mid : PluginState :=
        { s with sources := s.sources ++ [newsrc], next_source_id := s.next_source_id + 1 }
      have hmid : SourcesOk mid :=
        sourcesOk_of_add s mid newsrc rfl ⟨hcoh.1, trivial⟩ rfl rfl h.1
      exact ⟨sourcesOk_of_filter mid _ src.taskId rfl rfl hmid,
        registryOk_of_rearm s _ src newsrc id hmem hid rfl rfl rfl rfl h.1 h.2⟩
    | oneShot id =>
      have hid : id = src.notification.id := by
        have := hcoh.2
        rw [hcb] at this
        exact this
      simp only [TimeoutSource.run, hcb, g_application_send_notification, g_source_remove,
        Bool.false_eq_true, if_false]
      exact ⟨sourcesOk_of_filter s _ src.taskId rfl rfl h.1,
        registryOk_of_remove_erase s _ src id hmem hid.symm rfl rfl h.1 h.2⟩

theorem invariant_cancel (s : PluginState) (args : Option FlValue) (h : RegistryInvariant s) :
    RegistryInvariant (cancel s args).1 := by
  unfold cancel
  split
  · exact h
  · dsimp only
    split
    · rename_i iter hfind
      obtain ⟨hmem, hkey⟩ := unordered_map_find_mem _ _ _ hfind
      obtain ⟨t, ht, h1, h2⟩ := h.2.2 iter hmem
      refine ⟨sourcesOk_of_filter s _ iter.2 rfl rfl h.1, ?_⟩
      refine registryOk_of_remove_erase s _ t (fl_value_get_int args) ht (h2.trans hkey) ?_ rfl
        h.1 h.2
      rw [h1]
      rfl
    · exact invariant_congr s _ rfl rfl rfl h

theorem sourcesOk_cancelAll_foldl (m : List (Int × Nat)) (s : PluginState) (acc : List Int)
    (h : SourcesOk s) :
    SourcesOk (m.foldl
      (fun (acc : PluginState × List Int) (e : Int × Nat) =>
        (g_application_withdraw_notification (g_source_remove acc.1 e.2) (notificationKey e.1),
          acc.2 ++ [e.1]))
      (s, acc)).1 := by
  induction m generalizing s acc with
  | nil => exact h
  | cons e m ih =>
    simp only [List.foldl_cons]
    exact ih _ _ (sourcesOk_of_filter s _ e.2 rfl rfl h)

theorem sourcesOk_withdraw_foldl (l : List Int) (s : PluginState) (h : SourcesOk s) :
    SourcesOk
      (l.foldl (fun s id => g_application_withdraw_notification s (notificationKey id)) s) := by
  induction l generalizing s with
  | nil => exact h
  | cons a l ih =>
    simp only [List.foldl_cons]
    exact ih _ (sourcesOk_congr s _ rfl rfl h)

theorem invariant_cancelAll (s : PluginState) (h : RegistryInvariant s) :
    RegistryInvariant (cancelAll s).1 := by
  have h1 := sourcesOk_withdraw_foldl s.notifications s h.1
  have h2 := sourcesOk_cancelAll_foldl
    (s.notifications.foldl (fun s id => g_application_withdraw_notification s (notificationKey id))
      s).periodic_notification_map
    { (s.notifications.foldl
        (fun s id => g_application_withdraw_notification s (notificationKey id)) s) with
      notifications := [] }
    (s.notifications.foldl (fun s id => g_application_withdraw_notification s (notificationKey id))
      s).notifications
    (sourcesOk_congr _ _ rfl rfl h1)
  refine ⟨sourcesOk_congr _ _ rfl rfl h2, ?_, ?_⟩
  · simp only [cancelAll, List.map_nil, List.nodup_nil]
  · intro e he
    simp only [cancelAll, List.not_mem_nil] at he

theorem invariant_initializePlugin (s : PluginState) (args : Option FlValue)
    (h : RegistryInvariant s) : RegistryInvariant (initializePlugin s args).1 := by
  unfold initializePlugin
  dsimp only
  repeat' split
  all_goals exact invariant_congr s _ rfl rfl rfl h

theorem invariant_show (s s' : PluginState) (args : Option FlValue) (r : FlMethodResponse)
    (hs : «show» s args = some (s', r)) (h : RegistryInvariant s) : RegistryInvariant s' := by
  unfold «show» at hs
  repeat' split at hs
  all_goals first
    | (cases hs; exact h)
    | cases hs

theorem invariant_periodicallyShow (s s' : PluginState) (args : Option FlValue)
    (r : FlMethodResponse) (hs : periodicallyShow s args = some (s', r))
    (h : RegistryInvariant s) : RegistryInvariant s' := by
  unfold periodicallyShow at hs
  split at hs
  · cases hs; exact h
  · split at hs
    · cases hs; exact h
    · dsimp only at hs
      split at hs
      · cases hs; exact h
      · split at hs
        · cases hs; exact h
        · split at hs
          · cases hs
          · split at hs
            · cases hs
            · rename_i n hbuild
              cases hs
              exact invariant_doPeriodicallyShow s _ n _ (buildNotification_id _ _ _ _ _ _ _ hbuild) h

theorem invariant_zonedSchedule (s s' : PluginState) (args : Option FlValue)
    (d : Option GDateTime) (now : GDateTime) (r : FlMethodResponse)
    (hs : zonedSchedule s args d now = some (s', r)) (h : RegistryInvariant s) :
    RegistryInvariant s' := by
  unfold zonedSchedule at hs
  split at hs
  · cases hs; exact h
  · split at hs
    · cases hs; exact h
    · dsimp only at hs
      split at hs
      · cases hs; exact h
      · split at hs
        · cases hs; exact h
        · split at hs
          · cases hs; exact h
          · split at hs
            · cases hs
            · split at hs
              · cases hs
              · rename_i n hbuild
                split at hs
                · cases hs
                · simp only [Option.map_eq_some', Prod.mk.injEq] at hs
                  obtain ⟨s2, h2, h3, _⟩ := hs
                  subst h3
                  exact invariant_doZonedSchedule s s2 _ n _ _ _
                    (buildNotification_id _ _ _ _ _ _ _ hbuild) h2 h

theorem invariant_step (s s' : PluginState) (e : Event) (hs : step s e = some s')
    (h : RegistryInvariant s) : RegistryInvariant s' := by
  cases e with
  | fire tid =>
    simp only [step] at hs
    cases hs
    exact invariant_fire s tid h
  | call method args d now =>
    simp only [step, Option.map_eq_some'] at hs
    obtain ⟨⟨s2, r⟩, h2, h3⟩ := hs
    simp only at h3
    subst h3
    unfold flutter_local_notifications_plugin_handle_method_call at h2
    split_ifs at h2
    · have e := Option.some.inj h2
      have : s2 = (initializePlugin s args).1 := by rw [e]
      rw [this]; exact invariant_initializePlugin s args h
    · exact invariant_show _ _ _ _ h2 h
    · exact invariant_periodicallyShow _ _ _ _ h2 h
    · exact invariant_zonedSchedule _ _ _ _ _ _ h2 h
    · have e := Option.some.inj h2
      have : s2 = (cancel s args).1 := by rw [e]
      rw [this]; exact invariant_cancel s args h
    · have e := Option.some.inj h2
      have : s2 = (cancelAll s).1 := by rw [e]
      rw [this]; exact invariant_cancelAll s h
    · have e := Option.some.inj h2
      have : s2 = s := (congrArg Prod.fst e).symm
      rw [this]; exact h

theorem invariant_run (es : List Event) (s s' : PluginState) (hs : run s es = some s')
    (h : RegistryInvariant s) : RegistryInvariant s' := by
  induction es generalizing s with
  | nil =>
    simp only [run] at hs
    cases hs
    exact h
  | cons e es ih =>
    simp only [run, Option.bind_eq_some] at hs
    obtain ⟨s2, h2, h3⟩ := hs
    exact ih s2 h3 (invariant_step s s2 e h2 h)

theorem invariant_init : RegistryInvariant flutter_local_notifications_plugin_init := by
  refine ⟨⟨fresh_init, ?_, ?_⟩, ?_, ?_⟩
  · exact List.nodup_nil
  · intro t ht; cases ht
  · exact List.nodup_nil
  · intro e he; cases he

/-- A fire of an armed source sends that source's notification under that
source's key, whatever its callback. -/
theorem fire_sent (s : PluginState) (tid : Nat) (src : TimeoutSource)
    (hfind : s.sources.find? (fun t => t.taskId == tid) = some src) :
    (fire s tid).sent = s.sent ++ [(src.notificationId, src.notification)] := by
  unfold fire
  rw [hfind]
  cases hcb : src.callback <;>
    simp [TimeoutSource.run, hcb, g_application_send_notification, g_timeout_add_seconds_full,
      g_source_remove]

/-- C11.  In every state reachable from the initial empty state by any sequence
of `initialize`, `show`, `periodicallyShow`, `zonedSchedule`, `cancel`,
`cancelAll` calls and timer fires, each taken as one atomic step, the registry
holds at most one entry per id, and every registry entry `id -> handle` names a
timer that is armed, was set up for that same id, and on its fire sends the
notification of that id under the key of that id. -/
theorem registry_entries_armed_of_reachable (es : List Event) (s : PluginState)
    (hrun : run flutter_local_notifications_plugin_init es = some s) :
    (s.periodic_notification_map.map Prod.fst).Nodup ∧
    ∀ (id : Int) (taskId : Nat), (id, taskId) ∈ s.periodic_notification_map →
      ∃ t ∈ s.sources, t.taskId = taskId ∧ t.notification.id = id ∧
        t.notificationId = notificationKey id ∧
        (fire s taskId).sent = s.sent ++ [(notificationKey id, t.notification)] := by
  obtain ⟨hs, hk, he⟩ := invariant_run es _ s hrun invariant_init
  refine ⟨hk, ?_⟩
  intro id taskId hmem
  obtain ⟨t, ht, h1, h2⟩ := he (id, taskId) hmem
  have hkey : t.notificationId = notificationKey id := by
    rw [(hs.2.2 t ht).1, h2]
  refine ⟨t, ht, h1, h2, hkey, ?_⟩
  have hfind := find_source_of_mem s.sources t hs.2.1 ht
  rw [h1] at hfind
  rw [fire_sent s taskId t hfind, hkey]

/-- C11, witness: in the state after `show` with id 5 and `periodicallyShow`
with id 2, the registry entry `2 -> 1` names the armed timer 1, whose fire sends
the notification of id 2. -/
theorem registry_entries_armed_of_reachable_witness :
    run flutter_local_notifications_plugin_init
      [Event.call "show" (showArgs 5) none (utc 0),
       Event.call "periodicallyShow" (periodicArgs 2 0) none (utc 0)] = some busyState ∧
    (busyState.periodic_notification_map.map Prod.fst).Nodup ∧
    ∃ t ∈ busyState.sources, t.taskId = 1 ∧ t.notification.id = 2 ∧
      t.notificationId = notificationKey 2 ∧
      (fire busyState 1).sent = busyState.sent ++ [(notificationKey 2, t.notification)] :=
  ⟨by decide,
    (registry_entries_armed_of_reachable
      [Event.call "show" (showArgs 5) none (utc 0),
       Event.call "periodicallyShow" (periodicArgs 2 0) none (utc 0)] busyState (by decide)).1,
    (registry_entries_armed_of_reachable
      [Event.call "show" (showArgs 5) none (utc 0),
       Event.call "periodicallyShow" (periodicArgs 2 0) none (utc 0)] busyState (by decide)).2
      2 1 (by decide)⟩

/-! ## Theorems: error codes -/

theorem RequireArgument_code (f a : String) (arg : Option FlValue) (t : FlValueType)
    (r : FlMethodResponse) (h : RequireArgument f a arg t = some r) :
    ∃ msg, r = FlMethodResponse.error (f ++ "_error") msg none := by
  unfold RequireArgument at h
  split at h
  · cases h; exact ⟨_, rfl⟩
  · split at h
    · cases h; exact ⟨_, rfl⟩
    · cases h

theorem OptionalArgument_code (f a : String) (arg arg' : Option FlValue) (t : FlValueType)
    (r : FlMethodResponse) (h : OptionalArgument f a arg t = (some r, arg')) :
    ∃ msg, r = FlMethodResponse.error (f ++ "_error") msg none := by
  unfold OptionalArgument at h
  split at h
  · dsimp only at h
    split at h
    · cases h
    · split at h
      · cases h
      · cases h; exact ⟨_, rfl⟩
  · cases h

theorem getCommonArguments_code (args : Option FlValue) (resp : FlMethodResponse)
    (h : getCommonArguments args = Sum.inl resp) :
    ∃ msg, resp = FlMethodResponse.error "getCommonArguments_error" msg none := by
  unfold getCommonArguments at h
  try dsimp only at h
  split at h
  · rename_i r hr
    cases h
    exact RequireArgument_code _ _ _ _ _ hr
  · split at h
    · rename_i r x hr
      cases h
      exact OptionalArgument_code _ _ _ _ _ _ hr
    · split at h
      · rename_i r x hr
        cases h
        exact OptionalArgument_code _ _ _ _ _ _ hr
      · split at h
        · rename_i r hr
          cases h
          exact RequireArgument_code _ _ _ _ _ hr
        · split at h
          · rename_i r x hr
            cases h
            exact OptionalArgument_code _ _ _ _ _ _ hr
          · cases h

theorem error_of_RequireArgument (f a : String) (arg : Option FlValue) (t : FlValueType)
    (code msg : String) (d : Option FlValue)
    (h : RequireArgument f a arg t = some (FlMethodResponse.error code msg d)) :
    code = f ++ "_error" := by
  obtain ⟨m, hm⟩ := RequireArgument_code _ _ _ _ _ h
  cases hm
  rfl

theorem error_of_OptionalArgument (f a : String) (arg arg' : Option FlValue) (t : FlValueType)
    (code msg : String) (d : Option FlValue)
    (h : OptionalArgument f a arg t = (some (FlMethodResponse.error code msg d), arg')) :
    code = f ++ "_error" := by
  obtain ⟨m, hm⟩ := OptionalArgument_code _ _ _ _ _ _ h
  cases hm
  rfl

theorem error_of_getCommonArguments (args : Option FlValue) (code msg : String)
    (d : Option FlValue)
    (h : getCommonArguments args = Sum.inl (FlMethodResponse.error code msg d)) :
    code = "getCommonArguments_error" := by
  obtain ⟨m, hm⟩ := getCommonArguments_code _ _ h
  cases hm
  rfl

theorem show_error_code (s s' : PluginState) (args : Option FlValue) (code msg : String)
    (d : Option FlValue)
    (h : «show» s args = some (s', FlMethodResponse.error code msg d)) :
    (RequireArgument "show" "args" args FlValueType.MAP
        = some (FlMethodResponse.error code msg d) ∧ code = "show_error") ∨
    (getCommonArguments args = Sum.inl (FlMethodResponse.error code msg d) ∧
      code = "getCommonArguments_error") := by
  unfold «show» at h
  split at h
  · rename_i r hr
    simp only [Option.some.injEq, Prod.mk.injEq] at h
    obtain ⟨_, rfl⟩ := h
    exact Or.inl ⟨hr, error_of_RequireArgument _ _ _ _ _ _ _ hr⟩
  · split at h
    · rename_i r hr
      simp only [Option.some.injEq, Prod.mk.injEq] at h
      obtain ⟨_, rfl⟩ := h
      exact Or.inr ⟨hr, error_of_getCommonArguments _ _ _ _ hr⟩
    · split at h
      · cases h
      · simp at h

theorem periodicallyShow_error_code (s s' : PluginState) (args : Option FlValue)
    (code msg : String) (d : Option FlValue)
    (h : periodicallyShow s args = some (s', FlMethodResponse.error code msg d)) :
    (RequireArgument "periodicallyShow" "args" args FlValueType.MAP
        = some (FlMethodResponse.error code msg d) ∧ code = "periodicallyShow_error") ∨
    (getCommonArguments args = Sum.inl (FlMethodResponse.error code msg d) ∧
      code = "getCommonArguments_error") ∨
    (RequireArgument "periodicallyShow" "repeatInterval"
        (fl_value_lookup_string args "repeatInterval") FlValueType.INT
        = some (FlMethodResponse.error code msg d) ∧ code = "periodicallyShow_error") ∨
    msg = "repeatInterval is not in valid range" := by
  unfold periodicallyShow at h
  split at h
  · rename_i r hr
    simp only [Option.some.injEq, Prod.mk.injEq] at h
    obtain ⟨_, rfl⟩ := h
    exact Or.inl ⟨hr, error_of_RequireArgument _ _ _ _ _ _ _ hr⟩
  · split at h
    · rename_i r hr
      simp only [Option.some.injEq, Prod.mk.injEq] at h
      obtain ⟨_, rfl⟩ := h
      exact Or.inr (Or.inl ⟨hr, error_of_getCommonArguments _ _ _ _ hr⟩)
    · dsimp only at h
      split at h
      · rename_i r hr
        simp only [Option.some.injEq, Prod.mk.injEq] at h
        obtain ⟨_, rfl⟩ := h
        exact Or.inr (Or.inr (Or.inl ⟨hr, error_of_RequireArgument _ _ _ _ _ _ _ hr⟩))
      · split at h
        · simp only [Option.some.injEq, Prod.mk.injEq, FlMethodResponse.error.injEq] at h
          exact Or.inr (Or.inr (Or.inr h.2.2.1.symm))
        · split at h
          · cases h
          · split at h
            · cases h
            · simp at h

theorem zonedSchedule_error_code (s s' : PluginState) (args : Option FlValue)
    (realScheduledDateTime : Option GDateTime) (now : GDateTime)
    (code msg : String) (d : Option FlValue)
    (h : zonedSchedule s args realScheduledDateTime now
      = some (s', FlMethodResponse.error code msg d)) :
    (getCommonArguments args = Sum.inl (FlMethodResponse.error code msg d) ∧
      code = "getCommonArguments_error") ∨
    code = "zonedSchedule_error" := by
  unfold zonedSchedule at h
  split at h
  · rename_i r hr
    simp only [Option.some.injEq, Prod.mk.injEq] at h
    obtain ⟨_, rfl⟩ := h
    exact Or.inr (error_of_RequireArgument _ _ _ _ _ _ _ hr)
  · split at h
    · rename_i r hr
      simp only [Option.some.injEq, Prod.mk.injEq] at h
      obtain ⟨_, rfl⟩ := h
      exact Or.inl ⟨hr, error_of_getCommonArguments _ _ _ _ hr⟩
    · dsimp only at h
      split at h
      · rename_i r hr
        simp only [Option.some.injEq, Prod.mk.injEq] at h
        obtain ⟨_, rfl⟩ := h
        exact Or.inr (error_of_RequireArgument _ _ _ _ _ _ _ hr)
      · split at h
        · rename_i r hr
          simp only [Option.some.injEq, Prod.mk.injEq] at h
          obtain ⟨_, rfl⟩ := h
          exact Or.inr (error_of_RequireArgument _ _ _ _ _ _ _ hr)
        · split at h
          · rename_i r x hr
            simp only [Option.some.injEq, Prod.mk.injEq] at h
            obtain ⟨_, rfl⟩ := h
            exact Or.inr (error_of_OptionalArgument _ _ _ _ _ _ _ _ hr)
          · split at h
            · cases h
            · split at h
              · cases h
              · split at h
                · cases h
                · simp only [Option.map_eq_some', Prod.mk.injEq] at h
                  obtain ⟨_, _, _, h3⟩ := h
                  cases h3

theorem cancel_error_code (s s' : PluginState) (args : Option FlValue)
    (code msg : String) (d : Option FlValue)
    (h : cancel s args = (s', FlMethodResponse.error code msg d)) :
    code = "cancel_error" := by
  unfold cancel at h
  split at h
  · rename_i r hr
    simp only [Prod.mk.injEq] at h
    obtain ⟨_, rfl⟩ := h
    exact error_of_RequireArgument _ _ _ _ _ _ _ hr
  · simp at h

theorem common_argument_error_shared (s : PluginState) (args : Option FlValue)
    (resp : FlMethodResponse)
    (hmap : fl_value_get_type args = FlValueType.MAP)
    (hcommon : getCommonArguments args = Sum.inl resp) :
    «show» s args = some (s, resp) ∧ periodicallyShow s args = some (s, resp) ∧
    ∀ (d : Option GDateTime) (now : GDateTime), zonedSchedule s args d now = some (s, resp) := by
  have hsome := isSome_of_type_MAP args hmap
  refine ⟨?_, ?_, ?_⟩
  · simp only [«show», requireArgument_of_type "show" "args" args _ hsome hmap, hcommon]
  · simp only [periodicallyShow,
      requireArgument_of_type "periodicallyShow" "args" args _ hsome hmap, hcommon]
  · intro d now
    simp only [zonedSchedule,
      requireArgument_of_type "zonedSchedule" "args" args _ hsome hmap, hcommon]

/-- C12, counterexample.  `show` and `periodicallyShow`, each called with a map
that lacks `id`, return the same error, and its code is
`getCommonArguments_error`: neither `show_error` nor `periodicallyShow_error`,
and shared by two different methods. -/
theorem missing_id_error_code_is_shared :
    «show» flutter_local_notifications_plugin_init (some (FlValue.map []))
      = some (flutter_local_notifications_plugin_init,
          FlMethodResponse.error "getCommonArguments_error"
            "id is absent, which is required for this operation" none) ∧
    periodicallyShow flutter_local_notifications_plugin_init (some (FlValue.map []))
      = some (flutter_local_notifications_plugin_init,
          FlMethodResponse.error "getCommonArguments_error"
            "id is absent, which is required for this operation" none) ∧
    "getCommonArguments_error" ≠ "show_error" ∧
    "getCommonArguments_error" ≠ "periodicallyShow_error" :=
  ⟨rfl, rfl, by decide, by decide⟩

/-- C12, amended.  Every error response that `show`, `periodicallyShow`,
`zonedSchedule` or `cancel` returns for a missing required argument or a wrongly
typed argument carries the name of the function in which the check is written,
followed by `_error`.  For the common arguments `id`, `title`, `body`, `payload`
and `platformSpecifics` that function is `getCommonArguments`, so the code is
`getCommonArguments_error` whichever of `show`, `periodicallyShow` and
`zonedSchedule` was called, and the three return the very same response; for
every other argument the code is the called method's own name followed by
`_error`.  (Nothing is said here of the code of the range error of
`periodicallyShow`, which is recognised by its message.) -/
theorem error_code_names_checking_function :
    (∀ (s s' : PluginState) (args : Option FlValue) (code msg : String) (d : Option FlValue),
      «show» s args = some (s', FlMethodResponse.error code msg d) →
        (RequireArgument "show" "args" args FlValueType.MAP
            = some (FlMethodResponse.error code msg d) ∧ code = "show_error") ∨
        (getCommonArguments args = Sum.inl (FlMethodResponse.error code msg d) ∧
          code = "getCommonArguments_error")) ∧
    (∀ (s s' : PluginState) (args : Option FlValue) (code msg : String) (d : Option FlValue),
      periodicallyShow s args = some (s', FlMethodResponse.error code msg d) →
        (RequireArgument "periodicallyShow" "args" args FlValueType.MAP
            = some (FlMethodResponse.error code msg d) ∧ code = "periodicallyShow_error") ∨
        (getCommonArguments args = Sum.inl (FlMethodResponse.error code msg d) ∧
          code = "getCommonArguments_error") ∨
        (RequireArgument "periodicallyShow" "repeatInterval"
            (fl_value_lookup_string args "repeatInterval") FlValueType.INT
            = some (FlMethodResponse.error code msg d) ∧ code = "periodicallyShow_error") ∨
        msg = "repeatInterval is not in valid range") ∧
    (∀ (s s' : PluginState) (args : Option FlValue) (realScheduledDateTime : Option GDateTime)
        (now : GDateTime) (code msg : String) (d : Option FlValue),
      zonedSchedule s args realScheduledDateTime now
          = some (s', FlMethodResponse.error code msg d) →
        (getCommonArguments args = Sum.inl (FlMethodResponse.error code msg d) ∧
          code = "getCommonArguments_error") ∨
        code = "zonedSchedule_error") ∧
    (∀ (s s' : PluginState) (args : Option FlValue) (code msg : String) (d : Option FlValue),
      cancel s args = (s', FlMethodResponse.error code msg d) → code = "cancel_error") ∧
    (∀ (args : Option FlValue) (code msg : String) (d : Option FlValue),
      getCommonArguments args = Sum.inl (FlMethodResponse.error code msg d) →
        code = "getCommonArguments_error") ∧
    (∀ (s : PluginState) (args : Option FlValue) (resp : FlMethodResponse),
      fl_value_get_type args = FlValueType.MAP → getCommonArguments args = Sum.inl resp →
        «show» s args = some (s, resp) ∧ periodicallyShow s args = some (s, resp) ∧
        ∀ (d : Option GDateTime) (now : GDateTime),
          zonedSchedule s args d now = some (s, resp)) :=
  ⟨show_error_code, periodicallyShow_error_code, zonedSchedule_error_code, cancel_error_code,
    error_of_getCommonArguments, common_argument_error_shared⟩

/-- C12, witness: `zonedSchedule` with a payload of the wrong type answers with
`getCommonArguments_error`, and without `timeZoneName` with
`zonedSchedule_error`; `cancel` without an argument answers with
`cancel_error`. -/
theorem error_code_names_checking_function_witness :
    zonedSchedule busyState
        (some (FlValue.map [(FlValue.string "id", FlValue.int 1),
          (FlValue.string "payload", FlValue.int 0)])) none (utc 0)
      = some (busyState, FlMethodResponse.error "getCommonArguments_error"
          "payload has wrong type, which is required for this operation" none) ∧
    zonedSchedule busyState (showArgs 1) none (utc 0)
      = some (busyState, FlMethodResponse.error "zonedSchedule_error"
          "timeZoneName is absent, which is required for this operation" none) ∧
    ((getCommonArguments (showArgs 1)
        = Sum.inl (FlMethodResponse.error "zonedSchedule_error"
            "timeZoneName is absent, which is required for this operation" none) ∧
        "zonedSchedule_error" = "getCommonArguments_error") ∨
      "zonedSchedule_error" = "zonedSchedule_error") ∧
    cancel busyState none
      = (busyState, FlMethodResponse.error "cancel_error"
          "args is absent, which is required for this operation" none) ∧
    "cancel_error" = "cancel_error" :=
  ⟨rfl, rfl,
    error_code_names_checking_function.2.2.1 busyState busyState (showArgs 1) none (utc 0)
      "zonedSchedule_error" "timeZoneName is absent, which is required for this operation" none
      rfl,
    rfl,
    error_code_names_checking_function.2.2.2.1 busyState busyState none "cancel_error"
      "args is absent, which is required for this operation" none rfl⟩

/-! ## Theorems: `Mod` against the Euclidean remainder -/

theorem Mod_natAbs (m : ModType) (a b : Int) : Mod m a b = Mod m a (Int.natAbs b : Int) := by
  simp only [Mod, Int.natAbs_ofNat]

/-- In `NoZero` mode and for a positive divisor, `Mod` is the Euclidean
remainder with `b` in the place of `0`. -/
theorem Mod_NoZero_of_pos (a b : Int) (hb : 0 < b) :
    Mod ModType.NoZero a b = if a % b = 0 then b else a % b := by
  have hnat : ((Int.natAbs b : Nat) : Int) = b := Int.natAbs_of_nonneg hb.le
  have hlo := tmod_gt_neg a b hb
  have hhi := Int.tmod_lt_of_pos a hb
  have hdiv := Int.tmod_add_tdiv a b
  simp only [Mod, hnat]
  by_cases h : Int.tmod a b ≤ 0
  · simp only [h, decide_True, if_true]
    by_cases h0 : Int.tmod a b = 0
    · have e : a = 0 + b * Int.tdiv a b := by omega
      have hm : a % b = 0 := by
        rw [e, Int.add_mul_emod_self_left]; rfl
      rw [if_pos hm, h0, Int.zero_add]
    · have e : a = (Int.tmod a b + b) + b * (Int.tdiv a b - 1) := by
        rw [Int.mul_sub, Int.mul_one]; omega
      have hm : a % b = Int.tmod a b + b := by
        conv_lhs => rw [e]
        rw [Int.add_mul_emod_self_left]
        exact Int.emod_eq_of_lt (by omega) (by omega)
      rw [hm, if_neg (by omega)]
  · simp only [h, decide_False, Bool.false_eq_true, if_false]
    have e : a = Int.tmod a b + b * Int.tdiv a b := by omega
    have hm : a % b = Int.tmod a b := by
      conv_lhs => rw [e]
      rw [Int.add_mul_emod_self_left]
      exact Int.emod_eq_of_lt (by omega) (by omega)
    rw [hm, if_neg (by omega)]

/-- C13.  For all integers `a` and `b` with `b != 0`, so in particular for all
64-bit ones with `|b|` representable: `Mod` in its default `Normal` mode equals
the Euclidean remainder of `a` by `|b|`, the unique `r` with `0 <= r < |b|` and
`r` congruent to `a` modulo `|b|`, whatever the signs of `a` and `b`; and `Mod`
in `NoZero` mode returns the same value except that it returns `|b|` where the
Euclidean remainder is `0`, so its result lies in `(0, |b|]`.  Where `|b|` fits
64 bits so do the truncating remainder and both results: nothing overflows. -/
theorem Mod_refines_euclidean_remainder (a b : Int) (hb0 : b ≠ 0) :
    Mod ModType.Normal a b = EuclideanRemainder a b ∧
    IsEuclideanRemainder a b (Mod ModType.Normal a b) ∧
    (∀ r : Int, IsEuclideanRemainder a b r → r = Mod ModType.Normal a b) ∧
    Mod ModType.NoZero a b = ModNoZeroSpec a b ∧
    Mod ModType.NoZero a b
      = (if Mod ModType.Normal a b = 0 then |b| else Mod ModType.Normal a b) ∧
    0 < Mod ModType.NoZero a b ∧ Mod ModType.NoZero a b ≤ |b| ∧
    (|b| < 2 ^ 63 →
      -2 ^ 63 < Int.tmod a |b| ∧ Int.tmod a |b| < 2 ^ 63 ∧
      Mod ModType.Normal a b < 2 ^ 63 ∧ Mod ModType.NoZero a b < 2 ^ 63) := by
  have hB : ((Int.natAbs b : Nat) : Int) = |b| := (Int.abs_eq_natAbs b).symm
  have hpos : 0 < |b| := abs_pos.mpr hb0
  have hN : Mod ModType.Normal a b = a % |b| := by
    rw [Mod_natAbs, hB, Mod_Normal_of_pos a |b| hpos]
  have hZ : Mod ModType.NoZero a b = if a % |b| = 0 then |b| else a % |b| := by
    rw [Mod_natAbs, hB, Mod_NoZero_of_pos a |b| hpos]
  have h0 := Int.emod_nonneg a hpos.ne'
  have h1 := Int.emod_lt_of_pos a hpos
  have hspec : EuclideanRemainder a b = a % |b| := rfl
  have hlo := tmod_gt_neg a |b| hpos
  have hhi := Int.tmod_lt_of_pos a hpos
  refine ⟨hN, ⟨by rw [hN]; exact h0, by rw [hN]; exact h1, ?_⟩, ?_, ?_, ?_, ?_, ?_, ?_⟩
  · rw [hN]
    have hd := Int.emod_add_ediv a |b|
    have e : a - a % |b| = |b| * (a / |b|) := by omega
    rw [e, Int.mul_emod_right]
  · rintro r ⟨hr0, hr1, hr2⟩
    rw [hN]
    have hdvd : |b| ∣ a - r := Int.dvd_of_emod_eq_zero hr2
    obtain ⟨k, hk⟩ := hdvd
    have e : a = r + |b| * k := by omega
    rw [e, Int.add_mul_emod_self_left]
    exact (Int.emod_eq_of_lt hr0 hr1).symm
  · rw [hZ, ModNoZeroSpec, hspec]
  · rw [hZ, hN]
  · rw [hZ]; split <;> omega
  · rw [hZ]; split <;> omega
  · intro habs
    refine ⟨by omega, by omega, by rw [hN]; omega, ?_⟩
    rw [hZ]; split <;> omega

/-- C13, witness: `a = -6`, `b = -3`: the Euclidean remainder is `0`, which is
what `Normal` mode returns, and `NoZero` mode returns `|b| = 3`; and `a = -7`,
`b = -3` with remainder `2` in both modes. -/
theorem Mod_refines_euclidean_remainder_witness :
    (-3 : Int) ≠ 0 ∧
    Mod ModType.Normal (-6) (-3) = 0 ∧ Mod ModType.NoZero (-6) (-3) = 3 ∧
    Mod ModType.Normal (-6) (-3) = EuclideanRemainder (-6) (-3) ∧
    Mod ModType.NoZero (-6) (-3) = ModNoZeroSpec (-6) (-3) ∧
    Mod ModType.Normal (-7) (-3) = 2 ∧ Mod ModType.NoZero (-7) (-3) = 2 ∧
    Mod ModType.NoZero (-7) (-3) = ModNoZeroSpec (-7) (-3) :=
  ⟨by decide, by decide, by decide,
    (Mod_refines_euclidean_remainder (-6) (-3) (by decide)).1,
    (Mod_refines_euclidean_remainder (-6) (-3) (by decide)).2.2.2.1,
    by decide, by decide,
    (Mod_refines_euclidean_remainder (-7) (-3) (by decide)).2.2.2.1⟩

end FlutterLocalNotifications
